import Mathlib

/-!
Verification development for the rust-nes emulator core.

This file gives a shallow embedding, in Lean 4, of the CPU
instruction-decode/execute engine, the CPU bus dispatch, the stack
operations, the interrupt service routine of `src/cpu.rs`, the decode
table of `src/instruction.rs`, and the PPU register bus of
`src/ppu_register_bus.rs`.

Conventions of the embedding:
* Machine integers (`u8`, `u16`) are modelled as `Nat`, with wrapping
  arithmetic written explicitly (`% 256`, `% 0x10000`).  `wrapping_add`
  and `wrapping_sub` become explicit modular arithmetic; casts such as
  `as u8` become `% 256` / `&&& 0xFF` following the source expression.
* Code paths that abort in Rust (`panic!`, `todo!`, out-of-bounds array
  indexing, a `Vec` index beyond its length) are modelled by `Option`,
  with `none` standing for the abort.
* Mutation of `&mut self` becomes explicit state passing: a Rust method
  `fn f(&mut self, nes: &mut Nes, ...) -> T` becomes a Lean function
  `Cpu → Nes → ... → Option (T × Cpu × Nes)` (or a permutation of that
  result, noted at each definition).
* `log::debug!` / `log::warn!` calls are pure logging and are dropped;
  the argument expressions of the dropped calls read only ROM and hence
  mutate nothing.
-/

/-! ## Decode table (`src/instruction.rs`) -/

/-- Mirrors `enum Opcode` of `src/instruction.rs`, including the
unofficial opcodes and the `UNKNOWN(u8)` variant carrying the raw
opcode byte. -/
inductive Opcode where
  | ADC | AND | ASL | BCC | BCS | BEQ | BIT | BMI | BNE | BPL | BRK
  | BVC | BVS | CLC | CLD | CLI | CLV | CMP | CPX | CPY | DEC | DEX
  | DEY | EOR | INC | INX | INY | JMP | JSR | LDA | LDX | LDY | LSR
  | NOP | ORA | PHA | PHP | PLA | PLP | ROL | ROR | RTI | RTS | SBC
  | SEC | SED | SEI | STA | STX | STY | TAX | TAY | TSX | TXA | TXS
  | TYA | ISC | KIL | SLO
  | UNKNOWN (byte : Nat)

/-- Injective numbering of `Opcode` (the Rust enum derives `PartialEq`;
decidable equality is recovered through this encoding). -/
def Opcode.tag : Opcode → Nat
  | .ADC => 0  | .AND => 1  | .ASL => 2  | .BCC => 3  | .BCS => 4
  | .BEQ => 5  | .BIT => 6  | .BMI => 7  | .BNE => 8  | .BPL => 9
  | .BRK => 10 | .BVC => 11 | .BVS => 12 | .CLC => 13 | .CLD => 14
  | .CLI => 15 | .CLV => 16 | .CMP => 17 | .CPX => 18 | .CPY => 19
  | .DEC => 20 | .DEX => 21 | .DEY => 22 | .EOR => 23 | .INC => 24
  | .INX => 25 | .INY => 26 | .JMP => 27 | .JSR => 28 | .LDA => 29
  | .LDX => 30 | .LDY => 31 | .LSR => 32 | .NOP => 33 | .ORA => 34
  | .PHA => 35 | .PHP => 36 | .PLA => 37 | .PLP => 38 | .ROL => 39
  | .ROR => 40 | .RTI => 41 | .RTS => 42 | .SBC => 43 | .SEC => 44
  | .SED => 45 | .SEI => 46 | .STA => 47 | .STX => 48 | .STY => 49
  | .TAX => 50 | .TAY => 51 | .TSX => 52 | .TXA => 53 | .TXS => 54
  | .TYA => 55 | .ISC => 56 | .KIL => 57 | .SLO => 58
  | .UNKNOWN b => 59 + b

/-- Left inverse of `Opcode.tag`. -/
def Opcode.ofTag (n : Nat) : Opcode :=
  if 59 ≤ n then .UNKNOWN (n - 59)
  else if n = 0 then .ADC else if n = 1 then .AND else if n = 2 then .ASL
  else if n = 3 then .BCC else if n = 4 then .BCS else if n = 5 then .BEQ
  else if n = 6 then .BIT else if n = 7 then .BMI else if n = 8 then .BNE
  else if n = 9 then .BPL else if n = 10 then .BRK else if n = 11 then .BVC
  else if n = 12 then .BVS else if n = 13 then .CLC else if n = 14 then .CLD
  else if n = 15 then .CLI else if n = 16 then .CLV else if n = 17 then .CMP
  else if n = 18 then .CPX else if n = 19 then .CPY else if n = 20 then .DEC
  else if n = 21 then .DEX else if n = 22 then .DEY else if n = 23 then .EOR
  else if n = 24 then .INC else if n = 25 then .INX else if n = 26 then .INY
  else if n = 27 then .JMP else if n = 28 then .JSR else if n = 29 then .LDA
  else if n = 30 then .LDX else if n = 31 then .LDY else if n = 32 then .LSR
  else if n = 33 then .NOP else if n = 34 then .ORA else if n = 35 then .PHA
  else if n = 36 then .PHP else if n = 37 then .PLA else if n = 38 then .PLP
  else if n = 39 then .ROL else if n = 40 then .ROR else if n = 41 then .RTI
  else if n = 42 then .RTS else if n = 43 then .SBC else if n = 44 then .SEC
  else if n = 45 then .SED else if n = 46 then .SEI else if n = 47 then .STA
  else if n = 48 then .STX else if n = 49 then .STY else if n = 50 then .TAX
  else if n = 51 then .TAY else if n = 52 then .TSX else if n = 53 then .TXA
  else if n = 54 then .TXS else if n = 55 then .TYA else if n = 56 then .ISC
  else if n = 57 then .KIL else .SLO

/-- The numbering round-trips, so it is injective. -/
theorem Opcode.ofTag_tag (a : Opcode) : Opcode.ofTag a.tag = a := by
  cases a with
  | UNKNOWN b =>
      simp only [Opcode.tag, Opcode.ofTag]
      rw [if_pos (Nat.le_add_right 59 b)]
      simp
  | _ => rfl

instance : DecidableEq Opcode := fun a b =>
  if h : Opcode.tag a = Opcode.tag b then
    isTrue (by rw [← Opcode.ofTag_tag a, ← Opcode.ofTag_tag b, h])
  else
    isFalse (fun he => h (by rw [he]))

/-- Mirrors `enum Addressing` of `src/instruction.rs`. -/
inductive Addressing where
  | Accumulator
  | Absolute
  | AbsoluteX
  | AbsoluteY
  | Immediate
  | Implied
  | IndexedIndirect
  | Indirect
  | IndirectIndexed
  | Relative
  | ZeroPage
  | ZeroPageX
  | ZeroPageY
  | UNKNOWN
  deriving DecidableEq

/-- Mirrors `struct Instruction(pub Opcode, pub Addressing, pub usize)`
of `src/instruction.rs`: opcode, addressing mode and base cycle count. -/
structure Instruction where
  op : Opcode
  mode : Addressing
  cycles : Nat
  deriving DecidableEq

/-- Mirrors `impl From<u8> for Instruction` of `src/instruction.rs`:
the static decode table.  The fall-through arm returns
`UNKNOWN(opcode)` with the `UNKNOWN` addressing mode and 0 cycles. -/
def instructionOfByte (opcode : Nat) : Instruction :=
  match opcode with
  | 0x0A => ⟨Opcode.ASL, Addressing.Accumulator, 2⟩
  | 0x06 => ⟨Opcode.ASL, Addressing.ZeroPage, 5⟩
  | 0x16 => ⟨Opcode.ASL, Addressing.ZeroPageX, 6⟩
  | 0x0E => ⟨Opcode.ASL, Addressing.Absolute, 6⟩
  | 0x1E => ⟨Opcode.ASL, Addressing.AbsoluteX, 7⟩
  | 0x30 => ⟨Opcode.BMI, Addressing.Relative, 2⟩
  | 0xD0 => ⟨Opcode.BNE, Addressing.Relative, 2⟩
  | 0x10 => ⟨Opcode.BPL, Addressing.Relative, 2⟩
  | 0x00 => ⟨Opcode.BRK, Addressing.Implied, 7⟩
  | 0x50 => ⟨Opcode.BVC, Addressing.Relative, 2⟩
  | 0x18 => ⟨Opcode.CLC, Addressing.Implied, 2⟩
  | 0xD8 => ⟨Opcode.CLD, Addressing.Implied, 2⟩
  | 0x58 => ⟨Opcode.CLI, Addressing.Implied, 2⟩
  | 0xB8 => ⟨Opcode.CLV, Addressing.Implied, 2⟩
  | 0xC9 => ⟨Opcode.CMP, Addressing.Immediate, 2⟩
  | 0xC5 => ⟨Opcode.CMP, Addressing.ZeroPage, 3⟩
  | 0xD1 => ⟨Opcode.CMP, Addressing.IndirectIndexed, 5⟩
  | 0xC6 => ⟨Opcode.DEC, Addressing.ZeroPage, 5⟩
  | 0xD6 => ⟨Opcode.DEC, Addressing.ZeroPageX, 6⟩
  | 0x88 => ⟨Opcode.DEY, Addressing.Implied, 2⟩
  | 0xE8 => ⟨Opcode.INX, Addressing.Implied, 2⟩
  | 0x4C => ⟨Opcode.JMP, Addressing.Absolute, 3⟩
  | 0x20 => ⟨Opcode.JSR, Addressing.Absolute, 6⟩
  | 0xA9 => ⟨Opcode.LDA, Addressing.Immediate, 2⟩
  | 0xA5 => ⟨Opcode.LDA, Addressing.ZeroPage, 3⟩
  | 0xB5 => ⟨Opcode.LDA, Addressing.ZeroPageX, 4⟩
  | 0xAD => ⟨Opcode.LDA, Addressing.Absolute, 4⟩
  | 0xBD => ⟨Opcode.LDA, Addressing.AbsoluteX, 4⟩
  | 0xB9 => ⟨Opcode.LDA, Addressing.AbsoluteY, 4⟩
  | 0xA1 => ⟨Opcode.LDA, Addressing.IndexedIndirect, 6⟩
  | 0xB1 => ⟨Opcode.LDA, Addressing.IndirectIndexed, 4⟩
  | 0xA2 => ⟨Opcode.LDX, Addressing.Immediate, 2⟩
  | 0xA0 => ⟨Opcode.LDY, Addressing.Immediate, 2⟩
  | 0x78 => ⟨Opcode.SEI, Addressing.Implied, 2⟩
  | 0x8D => ⟨Opcode.STA, Addressing.Absolute, 4⟩
  | 0x9A => ⟨Opcode.TXS, Addressing.Implied, 2⟩
  | 0xFF => ⟨Opcode.ISC, Addressing.AbsoluteX, 7⟩
  | 0x02 => ⟨Opcode.KIL, Addressing.Implied, 2⟩
  | 0x12 => ⟨Opcode.KIL, Addressing.Implied, 2⟩
  | 0x22 => ⟨Opcode.KIL, Addressing.Implied, 2⟩
  | 0x32 => ⟨Opcode.KIL, Addressing.Implied, 2⟩
  | 0x42 => ⟨Opcode.KIL, Addressing.Implied, 2⟩
  | 0x52 => ⟨Opcode.KIL, Addressing.Implied, 2⟩
  | 0x62 => ⟨Opcode.KIL, Addressing.Implied, 2⟩
  | 0x72 => ⟨Opcode.KIL, Addressing.Implied, 2⟩
  | 0x92 => ⟨Opcode.KIL, Addressing.Implied, 2⟩
  | 0xB2 => ⟨Opcode.KIL, Addressing.Implied, 2⟩
  | 0xD2 => ⟨Opcode.KIL, Addressing.Implied, 2⟩
  | 0xF2 => ⟨Opcode.KIL, Addressing.Implied, 2⟩
  | 0x03 => ⟨Opcode.SLO, Addressing.IndexedIndirect, 8⟩
  | 0x04 => ⟨Opcode.NOP, Addressing.ZeroPage, 3⟩
  | 0x0C => ⟨Opcode.NOP, Addressing.Absolute, 4⟩
  | 0x14 => ⟨Opcode.NOP, Addressing.ZeroPageX, 4⟩
  | 0x1A => ⟨Opcode.NOP, Addressing.Implied, 2⟩
  | 0x1C => ⟨Opcode.NOP, Addressing.AbsoluteX, 4⟩
  | 0x34 => ⟨Opcode.NOP, Addressing.ZeroPageX, 4⟩
  | 0x3A => ⟨Opcode.NOP, Addressing.Implied, 2⟩
  | 0x3C => ⟨Opcode.NOP, Addressing.AbsoluteX, 4⟩
  | 0x44 => ⟨Opcode.NOP, Addressing.ZeroPage, 3⟩
  | 0x54 => ⟨Opcode.NOP, Addressing.ZeroPageX, 4⟩
  | 0x5A => ⟨Opcode.NOP, Addressing.Implied, 2⟩
  | 0x5C => ⟨Opcode.NOP, Addressing.AbsoluteX, 4⟩
  | 0x64 => ⟨Opcode.NOP, Addressing.ZeroPage, 3⟩
  | 0x74 => ⟨Opcode.NOP, Addressing.ZeroPageX, 4⟩
  | 0x7A => ⟨Opcode.NOP, Addressing.Implied, 2⟩
  | 0x7C => ⟨Opcode.NOP, Addressing.AbsoluteX, 4⟩
  | 0x80 => ⟨Opcode.NOP, Addressing.Immediate, 2⟩
  | 0x82 => ⟨Opcode.NOP, Addressing.Immediate, 2⟩
  | 0x89 => ⟨Opcode.NOP, Addressing.Immediate, 2⟩
  | 0xC2 => ⟨Opcode.NOP, Addressing.Immediate, 2⟩
  | 0xD4 => ⟨Opcode.NOP, Addressing.ZeroPageX, 4⟩
  | 0xDA => ⟨Opcode.NOP, Addressing.Implied, 2⟩
  | 0xDC => ⟨Opcode.NOP, Addressing.AbsoluteX, 4⟩
  | 0xE2 => ⟨Opcode.NOP, Addressing.Immediate, 2⟩
  | 0xF4 => ⟨Opcode.NOP, Addressing.ZeroPageX, 4⟩
  | 0xFA => ⟨Opcode.NOP, Addressing.Implied, 2⟩
  | 0xFC => ⟨Opcode.NOP, Addressing.AbsoluteX, 4⟩
  | b => ⟨Opcode.UNKNOWN b, Addressing.UNKNOWN, 0⟩

/-- The opcode bytes that have an explicit entry in the decode table of
`src/instruction.rs` (all the match arms other than the fall-through). -/
def tableBytes : List Nat :=
  [0x0A, 0x06, 0x16, 0x0E, 0x1E, 0x30, 0xD0, 0x10, 0x00, 0x50,
   0x18, 0xD8, 0x58, 0xB8, 0xC9, 0xC5, 0xD1, 0xC6, 0xD6, 0x88,
   0xE8, 0x4C, 0x20, 0xA9, 0xA5, 0xB5, 0xAD, 0xBD, 0xB9, 0xA1,
   0xB1, 0xA2, 0xA0, 0x78, 0x8D, 0x9A, 0xFF, 0x02, 0x12, 0x22,
   0x32, 0x42, 0x52, 0x62, 0x72, 0x92, 0xB2, 0xD2, 0xF2, 0x03,
   0x04, 0x0C, 0x14, 0x1A, 0x1C, 0x34, 0x3A, 0x3C, 0x44, 0x54,
   0x5A, 0x5C, 0x64, 0x74, 0x7A, 0x7C, 0x80, 0x82, 0x89, 0xC2,
   0xD4, 0xDA, 0xDC, 0xE2, 0xF4, 0xFA, 0xFC]

example : instructionOfByte 0xBD = ⟨Opcode.LDA, Addressing.AbsoluteX, 4⟩ := by decide
example : instructionOfByte 0x07 = ⟨Opcode.UNKNOWN 0x07, Addressing.UNKNOWN, 0⟩ := by decide

set_option maxHeartbeats 4000000 in
set_option maxRecDepth 100000 in
/-- C2: the instruction decoder is a pure total function: for every byte
0–255 it returns an (Opcode, AddressingMode, base-cycle-count) triple
(totality is by construction: `instructionOfByte` is a total Lean
function mirroring the exhaustive Rust `match`), decoding the same byte
twice yields an identical triple, and any byte with no entry in the
decode table maps to `UNKNOWN` carrying the raw byte. -/
theorem decode_total_pure_unknown (b : Nat) (hb : b < 256) :
    instructionOfByte b = instructionOfByte b ∧
    (b ∉ tableBytes →
      instructionOfByte b = ⟨Opcode.UNKNOWN b, Addressing.UNKNOWN, 0⟩) := by
  revert hb
  revert b
  decide

/-- Witness for `decode_total_pure_unknown` at the concrete byte 0x07,
which has no decode-table entry. -/
theorem decode_total_pure_unknown_witness :
    (0x07 : Nat) < 256 ∧
      (instructionOfByte 0x07 = instructionOfByte 0x07 ∧
        ((0x07 : Nat) ∉ tableBytes →
          instructionOfByte 0x07 = ⟨Opcode.UNKNOWN 0x07, Addressing.UNKNOWN, 0⟩)) :=
  ⟨by decide, decode_total_pure_unknown 0x07 (by decide)⟩

/-! ## PPU register bus (`src/ppu_register_bus.rs`, `src/ppu.rs`) -/

/-- Mirrors `enum Register` of `src/ppu.rs`. -/
inductive Register where
  | PPUCTRL
  | PPUMASK
  | PPUSTATUS
  | OAMADDR
  | OAMDATA
  | PPUSCROLL
  | PPUADDR
  | PPUDATA
  | OAMDMA
  deriving DecidableEq

/-- Mirrors `From<Register> for usize` of `src/ppu.rs`. -/
def Register.toAddr : Register → Nat
  | Register.PPUCTRL => 0x2000
  | Register.PPUMASK => 0x2001
  | Register.PPUSTATUS => 0x2002
  | Register.OAMADDR => 0x2003
  | Register.OAMDATA => 0x2004
  | Register.PPUSCROLL => 0x2005
  | Register.PPUADDR => 0x2006
  | Register.PPUDATA => 0x2007
  | Register.OAMDMA => 0x4014

/-- Modelled from the spec: `PpuRegisterBus::cpu_read` / `cpu_write` in
`src/ppu_register_bus.rs` convert the bus address with `addr.into()`,
but the `From<u16> for Register` impl is not present under `src/`.
Following §3 of the spec ("a PPU register window (8 memory-mapped
registers ...)") and the `From<Register> for usize` table of
`src/ppu.rs`, the conversion is modelled as the inverse of that table:
0x2000–0x2007 map to the eight registers in order and 0x4014 maps to
OAMDMA; any other address has no register (`none`, an abort). -/
def Register.fromAddr (addr : Nat) : Option Register :=
  if addr = 0x2000 then some Register.PPUCTRL
  else if addr = 0x2001 then some Register.PPUMASK
  else if addr = 0x2002 then some Register.PPUSTATUS
  else if addr = 0x2003 then some Register.OAMADDR
  else if addr = 0x2004 then some Register.OAMDATA
  else if addr = 0x2005 then some Register.PPUSCROLL
  else if addr = 0x2006 then some Register.PPUADDR
  else if addr = 0x2007 then some Register.PPUDATA
  else if addr = 0x4014 then some Register.OAMDMA
  else none

/-- Mirrors `enum PpuDataStatus` of `src/ppu_register_bus.rs`. -/
inductive PpuDataStatus where
  | None
  | Read
  | Written
  deriving DecidableEq

/-- Mirrors `struct PpuRegisterBus` of `src/ppu_register_bus.rs`. -/
structure PpuRegisterBus where
  ppu_addr_higher : Option Nat
  ppu_addr : Option Nat
  ppu_data : Nat
  ppu_data_status : PpuDataStatus
  deriving DecidableEq

/-- Mirrors `PpuRegisterBus::new`. -/
def PpuRegisterBus.new : PpuRegisterBus :=
  { ppu_addr_higher := none
    ppu_addr := none
    ppu_data := 0
    ppu_data_status := PpuDataStatus.None }

/-- Mirrors `PpuRegisterBus::cpu_read`.  The `PPUDATA` arm returns the
buffered byte and marks the status `Read`; every other register arm is a
`todo!` or a `panic!` in the source (modelled `none`), as is an address
with no register. -/
def PpuRegisterBus.cpu_read (bus : PpuRegisterBus) (addr : Nat) :
    Option (Nat × PpuRegisterBus) :=
  match Register.fromAddr addr with
  | some Register.PPUDATA =>
      some (bus.ppu_data, { bus with ppu_data_status := PpuDataStatus.Read })
  | _ => none

/-- Mirrors `PpuRegisterBus::cpu_write`.  `PPUADDR` drives the two-slot
address latch: with no higher byte latched the written byte becomes the
higher byte; with a higher byte latched the pair is combined into
`ppu_addr` and the latch is cleared.  `PPUDATA` stores the byte and
marks the status `Written`.  Every other register arm is a `todo!` in
the source (modelled `none`), as is an address with no register. -/
def PpuRegisterBus.cpu_write (bus : PpuRegisterBus) (addr data : Nat) :
    Option PpuRegisterBus :=
  match Register.fromAddr addr with
  | some Register.PPUADDR =>
      match bus.ppu_addr_higher with
      | none => some { bus with ppu_addr_higher := some data }
      | some higher =>
          some { bus with
                  ppu_addr := some ((higher <<< 8) ||| data)
                  ppu_addr_higher := none }
  | some Register.PPUDATA =>
      some { bus with
              ppu_data := data
              ppu_data_status := PpuDataStatus.Written }
  | some _ => none
  | none => none

/-- Mirrors `PpuRegisterBus::ppu_read`.  This function never aborts: it
returns the (optional) value the Rust function returns, together with
the updated bus. -/
def PpuRegisterBus.ppu_read (bus : PpuRegisterBus) (r : Register) :
    Option Nat × PpuRegisterBus :=
  match r with
  | Register.PPUADDR => (bus.ppu_addr, { bus with ppu_addr := none })
  | Register.PPUDATA =>
      (some bus.ppu_data, { bus with ppu_data_status := PpuDataStatus.None })
  | _ => (none, bus)

/-- C4: starting from an empty address latch, a CPU write of `hi` to
PPUADDR (0x2006) latches the high byte, a second write of `lo` completes
the 16-bit VRAM address `(hi <<< 8) ||| lo`, the PPU-side read of
PPUADDR returns exactly that address, and a third consecutive PPUADDR
write after the completed pair is latched as the high byte of a new
address. -/
theorem ppuaddr_latch_law (hi lo b : Nat) :
    ∃ bus1 bus2,
      PpuRegisterBus.new.cpu_write 0x2006 hi = some bus1 ∧
      bus1.ppu_addr_higher = some hi ∧
      bus1.cpu_write 0x2006 lo = some bus2 ∧
      bus2.ppu_addr = some ((hi <<< 8) ||| lo) ∧
      (bus2.ppu_read Register.PPUADDR).1 = some ((hi <<< 8) ||| lo) ∧
      bus2.cpu_write 0x2006 b = some { bus2 with ppu_addr_higher := some b } :=
  ⟨_, _, rfl, rfl, rfl, rfl, rfl, rfl⟩

/-! ## CPU and system container (`src/cpu.rs`, `src/nes.rs`) -/

/-- Mirrors `enum Interruption` of `src/cpu.rs`. -/
inductive Interruption where
  | RESET
  | IRQ
  | BRK
  | NMI
  | None
  deriving DecidableEq

/-- Mirrors `struct Nes` of `src/nes.rs` together with the
`cassette.prg_rom` vector it owns (`cassette_prg_rom` is the content,
`prg_len` its length) and the `cpu_interruption` field the CPU code
stores on it. -/
structure Nes where
  cassette_prg_rom : Nat → Nat
  prg_len : Nat
  cpu_interruption : Interruption
  ppu_register_bus : PpuRegisterBus

/-- Mirrors `Nes::read_program`: `self.cassette.prg_rom[addr as usize]`,
an abort (`none`) when the index is outside the vector. -/
def Nes.read_program (nes : Nes) (addr : Nat) : Option Nat :=
  if addr < nes.prg_len then some (nes.cassette_prg_rom addr) else none

/-- Mirrors `Nes::new_for_test prg_rom`: the cassette is built from a
16-byte header declaring one 16 KiB PRG unit followed by the program
bytes padded with zeroes, so `prg_rom` is the program followed by
zeroes, of total length 0x4000. -/
def Nes.new_for_test (prog : List Nat) : Nes :=
  { cassette_prg_rom := fun i => prog.getD i 0
    prg_len := 0x4000
    cpu_interruption := Interruption.None
    ppu_register_bus := PpuRegisterBus.new }

/-- Mirrors `enum Flag` of `src/cpu.rs` (namespaced under `Cpu` because
Mathlib already declares a root-level `Flag`). -/
inductive Cpu.Flag where
  | Carry
  | Zero
  | InterruptDisable
  | Decimal
  | Overflow
  | Negative
  | Break

/-- Mirrors `impl From<Flag> for u8` of `src/cpu.rs`. -/
def Cpu.Flag.toByte : Cpu.Flag → Nat
  | Cpu.Flag.Carry => 0b00000001
  | Cpu.Flag.Zero => 0b00000010
  | Cpu.Flag.InterruptDisable => 0b00000100
  | Cpu.Flag.Decimal => 0b00001000
  | Cpu.Flag.Break => 0b00010000
  | Cpu.Flag.Overflow => 0b01000000
  | Cpu.Flag.Negative => 0b10000000

/-- Mirrors `const RAM_SIZE: usize = 0x0800`. -/
def RAM_SIZE : Nat := 0x0800

/-- Mirrors `const PRG_ROM_BASE: u16 = 0x8000`. -/
def PRG_ROM_BASE : Nat := 0x8000

/-- Mirrors `struct Cpu` of `src/cpu.rs`: registers `a`, `x`, `y`
(`u8`), `pc` and `s` (`u16`), the status byte `status`, and the 2 KiB
work RAM array modelled as a function from index to byte. -/
structure Cpu where
  a : Nat
  x : Nat
  y : Nat
  pc : Nat
  s : Nat
  status : Nat
  ram : Nat → Nat

/-- Mirrors `Cpu::new`. -/
def Cpu.new : Cpu :=
  { a := 0
    x := 0
    y := 0
    pc := PRG_ROM_BASE
    s := 0x00FD
    status := 0x34
    ram := fun _ => 0 }

/-- Mirrors `Cpu::read_ram`: `self.ram[addr as usize]`, an abort
(`none`) when the index is at or beyond `RAM_SIZE`. -/
def Cpu.read_ram (cpu : Cpu) (addr : Nat) : Option Nat :=
  if addr < RAM_SIZE then some (cpu.ram addr) else none

/-- Mirrors `Cpu::write_ram`: `self.ram[addr as usize] = data`, an
abort (`none`) when the index is at or beyond `RAM_SIZE`. -/
def Cpu.write_ram (cpu : Cpu) (addr data : Nat) : Option Cpu :=
  if addr < RAM_SIZE then
    some { cpu with ram := fun j => if j = addr then data else cpu.ram j }
  else none

/-- Mirrors `Cpu::read_flag`. -/
def Cpu.read_flag (cpu : Cpu) (f : Cpu.Flag) : Bool :=
  cpu.status &&& Flag.toByte f == Flag.toByte f

/-- Mirrors `Cpu::write_flag`; `!bit` on `u8` is the bitwise complement
within a byte, written `0xFF ^^^ bit`. -/
def Cpu.write_flag (cpu : Cpu) (f : Cpu.Flag) (v : Bool) : Cpu :=
  if v then { cpu with status := cpu.status ||| Flag.toByte f }
  else { cpu with status := cpu.status &&& (0xFF ^^^ Flag.toByte f) }

/-- Mirrors `Cpu::read` (the CPU bus dispatch for reads).  Reads do not
mutate the CPU; the PPU register window mutates the bus held by `nes`,
so the result carries the updated `Nes`.  The ranges are those of the
Rust `match`: the four RAM mirrors, the PPU register window
0x2000–0x2007, the warn-and-return-0 windows 0x2008–0x401F and
0x4020–0x7FFF, and PRG ROM from 0x8000 up.  An address above 0xFFFF
cannot occur for a `u16`, so that case is mapped to `none`. -/
def Cpu.read (cpu : Cpu) (nes : Nes) (addr : Nat) : Option (Nat × Nes) :=
  if addr ≤ 0x07FF then (cpu.read_ram addr).map fun v => (v, nes)
  else if addr ≤ 0x0FFF then (cpu.read_ram (addr - 0x0800)).map fun v => (v, nes)
  else if addr ≤ 0x17FF then (cpu.read_ram (addr - 0x1000)).map fun v => (v, nes)
  else if addr ≤ 0x1FFF then (cpu.read_ram (addr - 0x1800)).map fun v => (v, nes)
  else if addr ≤ 0x2007 then
    (nes.ppu_register_bus.cpu_read addr).map fun p =>
      (p.1, { nes with ppu_register_bus := p.2 })
  else if addr ≤ 0x401F then some (0, nes)
  else if addr ≤ 0x7FFF then some (0, nes)
  else if addr ≤ 0xFFFF then
    (nes.read_program (addr - PRG_ROM_BASE)).map fun v => (v, nes)
  else none

/-- Mirrors `Cpu::write` (the CPU bus dispatch for writes).  Note that
the last Rust arm is `0x4020..=0xFFFF => panic!("Cartridge space is
read only...")`: every address from 0x4020 up aborts.  An address above
0xFFFF cannot occur for a `u16`, so that case is also `none`. -/
def Cpu.write (cpu : Cpu) (nes : Nes) (addr data : Nat) :
    Option (Cpu × Nes) :=
  if addr ≤ 0x07FF then (cpu.write_ram addr data).map fun c => (c, nes)
  else if addr ≤ 0x0FFF then (cpu.write_ram (addr - 0x0800) data).map fun c => (c, nes)
  else if addr ≤ 0x17FF then (cpu.write_ram (addr - 0x1000) data).map fun c => (c, nes)
  else if addr ≤ 0x1FFF then (cpu.write_ram (addr - 0x1800) data).map fun c => (c, nes)
  else if addr ≤ 0x2007 then
    (nes.ppu_register_bus.cpu_write addr data).map fun b =>
      (cpu, { nes with ppu_register_bus := b })
  else if addr ≤ 0x401F then some (cpu, nes)
  else none

/-- Model of a `u16` decrement that wraps: `x.wrapping_sub(1)` (and the
release-build behavior of `x - 1`), written as a case split so that the
value is `0xFFFF` at 0 and `a - 1` otherwise.  For `a < 0x10000` this
equals `(a + 0xFFFF) % 0x10000`. -/
def u16_sub_one (a : Nat) : Nat :=
  if a = 0 then 0xFFFF else a - 1

/-- Mirrors `Cpu::push_byte`: write at the raw stack pointer `s`, then
`s = s.wrapping_sub(1)`. -/
def Cpu.push_byte (cpu : Cpu) (data : Nat) : Option Cpu :=
  (cpu.write_ram cpu.s data).map fun c =>
    { c with s := u16_sub_one c.s }

/-- Mirrors `Cpu::push_word`: push `(data >> 8) as u8` (the high byte)
then `(data & 0x00ff) as u8` (the low byte). -/
def Cpu.push_word (cpu : Cpu) (data : Nat) : Option Cpu := do
  let c ← cpu.push_byte ((data >>> 8) % 256)
  c.push_byte (data &&& 0x00FF)

/-- Mirrors `Cpu::pop`: `self.s += 1; self.read_ram(self.s - 1)`.  The
increment and decrement are `u16` arithmetic (wrapping written
explicitly). -/
def Cpu.pop (cpu : Cpu) : Option (Nat × Cpu) :=
  let c := { cpu with s := (cpu.s + 1) % 0x10000 }
  (c.read_ram (u16_sub_one c.s)).map fun v => (v, c)

/-- Mirrors `Cpu::fetch_byte`: `self.pc += 1; self.read(nes, self.pc-1)`. -/
def Cpu.fetch_byte (cpu : Cpu) (nes : Nes) : Option (Nat × Cpu × Nes) :=
  let c := { cpu with pc := (cpu.pc + 1) % 0x10000 }
  (c.read nes (u16_sub_one c.pc)).map fun p => (p.1, c, p.2)

/-- Mirrors `Cpu::fetch_word`: fetch low byte then high byte, result
`h << 8 | l`. -/
def Cpu.fetch_word (cpu : Cpu) (nes : Nes) : Option (Nat × Cpu × Nes) := do
  let (l, c1, n1) ← cpu.fetch_byte nes
  let (h, c2, n2) ← c1.fetch_byte n1
  pure ((h <<< 8) ||| l, c2, n2)

/-- Mirrors `is_negative` of `src/cpu.rs`. -/
def is_negative (v : Nat) : Bool :=
  v &&& 0b10000000 == 0b10000000

/-- Mirrors `is_carried` of `src/cpu.rs`. -/
def is_carried (v1 v2 : Nat) : Bool :=
  (v1 + v2) &&& 0x0100 == 0x0100

/-- Mirrors `Cpu::fetch_addressed_data`, returning
`(address, data, cpu, nes)`.  The `ZeroPageY`, `Relative`, `AbsoluteY`,
`Indirect`, `IndexedIndirect` and `IndirectIndexed` arms are `todo!`
and the `UNKNOWN` arm is a `panic!` in the source; all are `none`.
`ZeroPageX` adds the fetched byte and `x` as `u16` (no wrap possible);
`AbsoluteX` is `fetch_word().wrapping_add(x as u16)`. -/
def Cpu.fetch_addressed_data (cpu : Cpu) (nes : Nes) (mode : Addressing) :
    Option (Option Nat × Nat × Cpu × Nes) :=
  match mode with
  | Addressing.Implied => some (none, 0, cpu, nes)
  | Addressing.Accumulator => some (none, cpu.a, cpu, nes)
  | Addressing.Immediate =>
      (cpu.fetch_byte nes).map fun (b, c, n) => (none, b, c, n)
  | Addressing.ZeroPage => do
      let (b, c, n) ← cpu.fetch_byte nes
      let (v, n') ← c.read n b
      pure (some b, v, c, n')
  | Addressing.ZeroPageX => do
      let (b, c, n) ← cpu.fetch_byte nes
      let addr := b + c.x
      let (v, n') ← c.read n addr
      pure (some addr, v, c, n')
  | Addressing.Absolute => do
      let (w, c, n) ← cpu.fetch_word nes
      let (v, n') ← c.read n w
      pure (some w, v, c, n')
  | Addressing.AbsoluteX => do
      let (w, c, n) ← cpu.fetch_word nes
      let addr := (w + c.x) % 0x10000
      let (v, n') ← c.read n addr
      pure (some addr, v, c, n')
  | _ => none

/-- Interpretation of a byte as Rust `i8` (two's complement). -/
def i8ofByte (b : Nat) : Int :=
  if b < 128 then (b : Int) else (b : Int) - 256

/-- Truncation of an integer to `u16` (the effect of `as u16` on an
`i32`): the nonnegative remainder modulo 0x10000. -/
def u16ofInt (i : Int) : Nat :=
  (i % 0x10000).toNat

/-- Mirrors `Cpu::branch_relative`: fetch the relative offset as `i8`;
when the condition holds add it to `pc` (via `i32`, truncated back to
`u16`) and return 1 cycle if the new `pc` stays in the page of the
post-operand `pc`, 2 if it crosses; when the condition fails return 0
cycles. -/
def Cpu.branch_relative (cpu : Cpu) (nes : Nes) (condition : Bool) :
    Option (Nat × Cpu × Nes) :=
  (cpu.fetch_byte nes).map fun (data, c, n) =>
    if condition then
      let prev_pc := c.pc
      let c2 := { c with pc := u16ofInt ((c.pc : Int) + i8ofByte data) }
      if c2.pc &&& 0xFF00 == prev_pc &&& 0xFF00 then (1, c2, n)
      else (2, c2, n)
    else (0, c, n)

/-- Mirrors `Cpu::instruction_clear_flag`. -/
def Cpu.instruction_clear_flag (cpu : Cpu) (flag : Cpu.Flag) :
    Cpu × Nat :=
  (cpu.write_flag flag false, 0)

/-- Mirrors `Cpu::instruction_asl`.  `wrapping_shl(1)` on `u8` is
`(data <<< 1) % 256`.  Note the source sets the Zero flag from
`self.a == 0` (the accumulator before any update), not from the shift
result `next`; the flag writes happen before the result is stored. -/
def Cpu.instruction_asl (cpu : Cpu) (nes : Nes) (mode : Addressing) :
    Option (Cpu × Nes × Nat) := do
  let (addr?, data, c1, n1) ← cpu.fetch_addressed_data nes mode
  let next := (data <<< 1) % 256
  let c2 := c1.write_flag Cpu.Flag.Carry (data &&& 0b10000000 == 0b10000000)
  let c3 := c2.write_flag Cpu.Flag.Zero (c2.a == 0)
  let c4 := c3.write_flag Cpu.Flag.Negative (is_negative next)
  match addr? with
  | some addr => (c4.write n1 addr next).map fun p => (p.1, p.2, 0)
  | none => some ({ c4 with a := next }, n1, 0)

/-- Mirrors `Cpu::instruction_bmi`: `Relative` only (otherwise a
`panic!`), branch when the Negative flag is set. -/
def Cpu.instruction_bmi (cpu : Cpu) (nes : Nes) (mode : Addressing) :
    Option (Nat × Cpu × Nes) :=
  if mode ≠ Addressing.Relative then none
  else cpu.branch_relative nes (cpu.read_flag Cpu.Flag.Negative)

/-- Mirrors `Cpu::instruction_bne`: `Relative` only, branch when the
Zero flag is clear. -/
def Cpu.instruction_bne (cpu : Cpu) (nes : Nes) (addressing : Addressing) :
    Option (Nat × Cpu × Nes) :=
  if addressing ≠ Addressing.Relative then none
  else cpu.branch_relative nes (!cpu.read_flag Cpu.Flag.Zero)

/-- Mirrors `Cpu::instruction_bpl`: `Relative` only, branch when the
Negative flag is clear. -/
def Cpu.instruction_bpl (cpu : Cpu) (nes : Nes) (addressing : Addressing) :
    Option (Nat × Cpu × Nes) :=
  if addressing ≠ Addressing.Relative then none
  else cpu.branch_relative nes (!cpu.read_flag Cpu.Flag.Negative)

/-- Mirrors `Cpu::instruction_brk`: `Implied` only; record a pending
BRK interruption on the shared container and set the Break flag. -/
def Cpu.instruction_brk (cpu : Cpu) (nes : Nes) (addressing : Addressing) :
    Option (Cpu × Nes × Nat) :=
  if addressing ≠ Addressing.Implied then none
  else
    some (cpu.write_flag Cpu.Flag.Break true,
          { nes with cpu_interruption := Interruption.BRK }, 0)

/-- Mirrors `Cpu::instruction_bvc`: `Relative` only; its own inline
branch logic (not `branch_relative`): when the Overflow flag is clear,
add the offset to `pc`, +1 cycle for crossing a page and +1 cycle for
the taken branch. -/
def Cpu.instruction_bvc (cpu : Cpu) (nes : Nes) (addressing : Addressing) :
    Option (Nat × Cpu × Nes) :=
  if addressing ≠ Addressing.Relative then none
  else
    (cpu.fetch_byte nes).map fun (val, c, n) =>
      if !c.read_flag Cpu.Flag.Overflow then
        let addr : Int := (c.pc : Int) + i8ofByte val
        let cross : Nat :=
          if u16ofInt addr &&& 0xFF00 ≠ c.pc &&& 0xFF00 then 1 else 0
        (cross + 1, { c with pc := u16ofInt addr }, n)
      else (0, c, n)

/-- Mirrors `Cpu::instruction_dec`: `ZeroPage` or `ZeroPageX` (the
latter with a wrapping `u8` add of `x`), decrement the memory cell via
`wrapping_add(!1+1)` (adding 0xFF modulo 256), then set Zero/Negative
from the result. -/
def Cpu.instruction_dec (cpu : Cpu) (nes : Nes) (addressing : Addressing) :
    Option (Cpu × Nes × Nat) := do
  let (addr, c1, n1) ←
    match addressing with
    | Addressing.ZeroPage => cpu.fetch_byte nes
    | Addressing.ZeroPageX =>
        (cpu.fetch_byte nes).map fun (b, c, n) => ((b + c.x) % 256, c, n)
    | _ => none
  let (val, n2) ← c1.read n1 addr
  let data := (val + 0xFF) % 256
  let (c2, n3) ← c1.write n2 addr data
  let c3 := (c2.write_flag Cpu.Flag.Zero (data == 0)).write_flag
    Cpu.Flag.Negative (is_negative data)
  pure (c3, n3, 0)

/-- Mirrors `Cpu::instruction_dey`: `y = y.wrapping_add(!1+1)` (minus
one modulo 256), then set Zero/Negative from the new `y`. -/
def Cpu.instruction_dey (cpu : Cpu) (nes : Nes) (_ : Addressing) :
    Option (Cpu × Nes × Nat) :=
  let c1 := { cpu with y := (cpu.y + 0xFF) % 256 }
  let c2 := (c1.write_flag Cpu.Flag.Zero (c1.y == 0)).write_flag
    Cpu.Flag.Negative (is_negative c1.y)
  some (c2, nes, 0)

/-- Mirrors `Cpu::instruction_inx`: `x = x.wrapping_add(1)`, then set
Zero/Negative from the new `x`. -/
def Cpu.instruction_inx (cpu : Cpu) (nes : Nes) (_ : Addressing) :
    Option (Cpu × Nes × Nat) :=
  let c1 := { cpu with x := (cpu.x + 1) % 256 }
  let c2 := (c1.write_flag Cpu.Flag.Zero (c1.x == 0)).write_flag
    Cpu.Flag.Negative (is_negative c1.x)
  some (c2, nes, 0)

/-- Mirrors `Cpu::instruction_isc` (INC + SBC), `AbsoluteX` only with a
plain (non-wrapping in the source, wrapping in release builds) `u16`
add of `x`.  `overflowing_sub` on `u8` is modelled by modular
subtraction plus the borrow condition. -/
def Cpu.instruction_isc (cpu : Cpu) (nes : Nes) (addressing : Addressing) :
    Option (Cpu × Nes × Nat) := do
  let (addr, c1, n1) ←
    match addressing with
    | Addressing.AbsoluteX =>
        (cpu.fetch_word nes).map fun (w, c, n) => ((w + c.x) % 0x10000, c, n)
    | _ => none
  let (data, n2) ← c1.read n1 addr
  let incremented_val := (data + 1) % 256
  let (c2, n3) ← c1.write n2 addr incremented_val
  let c : Nat := if c2.read_flag Cpu.Flag.Carry then 0 else 1
  let next_val := (c2.a + 256 - incremented_val) % 256
  let overflowed1 := decide (c2.a < incremented_val)
  let result := (next_val + 256 - c) % 256
  let overflowed2 := decide (next_val < c)
  let c3 := c2.write_flag Cpu.Flag.Carry
    (!(is_carried c2.a incremented_val || is_carried next_val c))
  let c4 := c3.write_flag Cpu.Flag.Zero (result == 0)
  let c5 := c4.write_flag Cpu.Flag.Overflow (overflowed1 || overflowed2)
  let c6 := c5.write_flag Cpu.Flag.Negative (is_negative result)
  pure ({ c6 with a := result }, n3, 0)

/-- Mirrors `Cpu::instruction_jmp`: fetch the target word into `pc`
(the addressing mode is ignored by the source). -/
def Cpu.instruction_jmp (cpu : Cpu) (nes : Nes) (_ : Addressing) :
    Option (Cpu × Nes × Nat) := do
  let (addr, c1, n1) ← cpu.fetch_word nes
  pure ({ c1 with pc := addr }, n1, 0)

/-- Mirrors `Cpu::instruction_jsr`: fetch the target word, push the
post-operand `pc`, jump. -/
def Cpu.instruction_jsr (cpu : Cpu) (nes : Nes) (_ : Addressing) :
    Option (Cpu × Nes × Nat) := do
  let (addr, c1, n1) ← cpu.fetch_word nes
  let c2 ← c1.push_word c1.pc
  pure ({ c2 with pc := addr }, n1, 0)

/-- Mirrors `Cpu::instruction_kil`: `Implied` only, does nothing. -/
def Cpu.instruction_kil (cpu : Cpu) (nes : Nes) (mode : Addressing) :
    Option (Cpu × Nes × Nat) :=
  if mode ≠ Addressing.Implied then none
  else some (cpu, nes, 0)

/-- Mirrors `Cpu::instruction_lda`: `Immediate`, `Absolute` or
`AbsoluteX`; the `AbsoluteX` arm adds one extra cycle when the indexed
address leaves the page of the fetched base word; loads `a` and sets
Zero/Negative from the new `a`. -/
def Cpu.instruction_lda (cpu : Cpu) (nes : Nes) (addressing : Addressing) :
    Option (Cpu × Nes × Nat) := do
  let (operand, add, c1, n1) ←
    match addressing with
    | Addressing.Immediate =>
        (cpu.fetch_byte nes).map fun (b, c, n) => (b, 0, c, n)
    | Addressing.Absolute => do
        let (w, c, n) ← cpu.fetch_word nes
        let (v, n') ← c.read n w
        pure (v, 0, c, n')
    | Addressing.AbsoluteX => do
        let (word, c, n) ← cpu.fetch_word nes
        let addr := (word + c.x) % 0x10000
        let add : Nat := if word &&& 0xFF00 ≠ addr &&& 0xFF00 then 1 else 0
        let (v, n') ← c.read n addr
        pure (v, add, c, n')
    | _ => none
  let c2 := { c1 with a := operand }
  let c3 := (c2.write_flag Cpu.Flag.Zero (c2.a == 0)).write_flag
    Cpu.Flag.Negative (is_negative c2.a)
  pure (c3, n1, add)

/-- Mirrors `Cpu::instruction_ldx`: `Immediate` only; loads `x` and
sets Zero/Negative from the new `x`. -/
def Cpu.instruction_ldx (cpu : Cpu) (nes : Nes) (addressing : Addressing) :
    Option (Cpu × Nes × Nat) := do
  let (operand, c1, n1) ←
    match addressing with
    | Addressing.Immediate => cpu.fetch_byte nes
    | _ => none
  let c2 := { c1 with x := operand }
  let c3 := (c2.write_flag Cpu.Flag.Zero (c2.x == 0)).write_flag
    Cpu.Flag.Negative (is_negative c2.x)
  pure (c3, n1, 0)

/-- Mirrors `Cpu::instruction_ldy`: `Immediate` only; loads `y` and
sets Zero/Negative from the new `y`. -/
def Cpu.instruction_ldy (cpu : Cpu) (nes : Nes) (addressing : Addressing) :
    Option (Cpu × Nes × Nat) := do
  let (operand, c1, n1) ←
    match addressing with
    | Addressing.Immediate => cpu.fetch_byte nes
    | _ => none
  let c2 := { c1 with y := operand }
  let c3 := (c2.write_flag Cpu.Flag.Zero (c2.y == 0)).write_flag
    Cpu.Flag.Negative (is_negative c2.y)
  pure (c3, n1, 0)

/-- Mirrors `Cpu::instruction_nop`: resolve the addressing mode (with
its reads), then add one cycle exactly when the mode is `AbsoluteX` and
the resolved address is on a different page from
`addr.wrapping_sub(x as u16)`. -/
def Cpu.instruction_nop (cpu : Cpu) (nes : Nes) (mode : Addressing) :
    Option (Cpu × Nes × Nat) := do
  let (addr?, _, c1, n1) ← cpu.fetch_addressed_data nes mode
  if mode = Addressing.AbsoluteX then
    match addr? with
    | some addr =>
        if addr &&& 0xFF00 ≠ ((addr + 0x10000 - c1.x % 0x10000) % 0x10000) &&& 0xFF00 then
          pure (c1, n1, 1)
        else pure (c1, n1, 0)
    | none => pure (c1, n1, 0)
  else pure (c1, n1, 0)

/-- Mirrors `Cpu::instruction_sei`: set the InterruptDisable flag. -/
def Cpu.instruction_sei (cpu : Cpu) (nes : Nes) (_ : Addressing) :
    Option (Cpu × Nes × Nat) :=
  some (cpu.write_flag Cpu.Flag.InterruptDisable true, nes, 0)

/-- Mirrors `Cpu::instruction_slo` (ASL + ORA), `IndexedIndirect` only:
the pointer `fetch_byte + x` is a `u8` add (wrapping in release
builds), the two pointer bytes give the effective address `l + (h<<8)`,
the cell is shifted left with the bit shifted out going to Carry, then
ORed into `a`, and Zero/Negative are set from the new `a`. -/
def Cpu.instruction_slo (cpu : Cpu) (nes : Nes) (addressing : Addressing) :
    Option (Cpu × Nes × Nat) := do
  let (addr0, c1, n1) ←
    match addressing with
    | Addressing.IndexedIndirect =>
        (cpu.fetch_byte nes).map fun (b, c, n) => ((b + c.x) % 256, c, n)
    | _ => none
  let (l, n2) ← c1.read n1 addr0
  let (h0, n3) ← c1.read n2 (addr0 + 1)
  let addr := l + (h0 <<< 8)
  let (data, n4) ← c1.read n3 addr
  let val := (data <<< 1) % 256
  let c2 := c1.write_flag Cpu.Flag.Carry (data &&& 0b10000000 == 0b10000000)
  let c3 := { c2 with a := val ||| c2.a }
  let c4 := (c3.write_flag Cpu.Flag.Zero (c3.a == 0)).write_flag
    Cpu.Flag.Negative (is_negative c3.a)
  pure (c4, n4, 0)

/-- Mirrors `Cpu::instruction_sta`: `Absolute` only, store `a` at the
fetched address. -/
def Cpu.instruction_sta (cpu : Cpu) (nes : Nes) (addressing : Addressing) :
    Option (Cpu × Nes × Nat) := do
  let (addr, c1, n1) ←
    match addressing with
    | Addressing.Absolute => cpu.fetch_word nes
    | _ => none
  let (c2, n2) ← c1.write n1 addr c1.a
  pure (c2, n2, 0)

/-- Mirrors `Cpu::instruction_txs`: `s = x as u16`. -/
def Cpu.instruction_txs (cpu : Cpu) (nes : Nes) (_ : Addressing) :
    Option (Cpu × Nes × Nat) :=
  some ({ cpu with s := cpu.x }, nes, 0)

/-- Mirrors the `match opcode` block of `Cpu::execute_instruction`
(factored into its own definition): dispatch on the decoded opcode to
the handler, returning its additional cycles.  Opcodes with no handler
arm fall to the `panic!` arm (`none`).  The branch handlers return
`(cycles, cpu, nes)` and are reordered here to the common
`(cpu, nes, cycles)` shape. -/
def Cpu.dispatch (c1 : Cpu) (n1 : Nes) (instr : Instruction) :
    Option (Cpu × Nes × Nat) :=
  match instr.op with
    | Opcode.ASL => c1.instruction_asl n1 instr.mode
    | Opcode.BMI => (c1.instruction_bmi n1 instr.mode).map fun (a, c, n) => (c, n, a)
    | Opcode.BNE => (c1.instruction_bne n1 instr.mode).map fun (a, c, n) => (c, n, a)
    | Opcode.BPL => (c1.instruction_bpl n1 instr.mode).map fun (a, c, n) => (c, n, a)
    | Opcode.BRK => c1.instruction_brk n1 instr.mode
    | Opcode.BVC => (c1.instruction_bvc n1 instr.mode).map fun (a, c, n) => (c, n, a)
    | Opcode.CLC => (fun p => some (p.1, n1, p.2)) (c1.instruction_clear_flag Cpu.Flag.Carry)
    | Opcode.CLD => (fun p => some (p.1, n1, p.2)) (c1.instruction_clear_flag Cpu.Flag.Decimal)
    | Opcode.CLI => (fun p => some (p.1, n1, p.2)) (c1.instruction_clear_flag Cpu.Flag.InterruptDisable)
    | Opcode.CLV => (fun p => some (p.1, n1, p.2)) (c1.instruction_clear_flag Cpu.Flag.Overflow)
    | Opcode.DEC => c1.instruction_dec n1 instr.mode
    | Opcode.DEY => c1.instruction_dey n1 instr.mode
    | Opcode.INX => c1.instruction_inx n1 instr.mode
    | Opcode.ISC => c1.instruction_isc n1 instr.mode
    | Opcode.JMP => c1.instruction_jmp n1 instr.mode
    | Opcode.JSR => c1.instruction_jsr n1 instr.mode
    | Opcode.LDA => c1.instruction_lda n1 instr.mode
    | Opcode.LDX => c1.instruction_ldx n1 instr.mode
    | Opcode.LDY => c1.instruction_ldy n1 instr.mode
    | Opcode.NOP => c1.instruction_nop n1 instr.mode
    | Opcode.SEI => c1.instruction_sei n1 instr.mode
    | Opcode.STA => c1.instruction_sta n1 instr.mode
    | Opcode.TXS => c1.instruction_txs n1 instr.mode
    | Opcode.KIL => c1.instruction_kil n1 instr.mode
    | Opcode.SLO => c1.instruction_slo n1 instr.mode
    | _ => none

/-- Mirrors `Cpu::execute_instruction`: fetch the opcode byte, decode
it, dispatch to the handler (`Cpu.dispatch`), and return the table base
cycles plus the handler's additional cycles. -/
def Cpu.execute_instruction (cpu : Cpu) (nes : Nes) :
    Option (Cpu × Nes × Nat) := do
  let (byte, c1, n1) ← cpu.fetch_byte nes
  let instr := instructionOfByte byte
  let r ← c1.dispatch n1 instr
  pure (r.1, r.2.1, instr.cycles + r.2.2)

/-- Mirrors `Cpu::interrupt`.  `RESET`, `IRQ` and `NMI` are
unimplemented (a debug log only); `None` does nothing; all four fall
through to `nes.cpu_interruption = Interruption::None`.  The `BRK` arm
returns early — without clearing the pending interruption — when the
InterruptDisable flag is set; otherwise it pushes `pc` and the status
byte, sets InterruptDisable, loads `pc` from the vector at
0xFFFE/0xFFFF and then clears the pending interruption. -/
def Cpu.interrupt (cpu : Cpu) (nes : Nes) : Option (Cpu × Nes) :=
  match nes.cpu_interruption with
  | Interruption.RESET => some (cpu, { nes with cpu_interruption := Interruption.None })
  | Interruption.IRQ => some (cpu, { nes with cpu_interruption := Interruption.None })
  | Interruption.NMI => some (cpu, { nes with cpu_interruption := Interruption.None })
  | Interruption.None => some (cpu, { nes with cpu_interruption := Interruption.None })
  | Interruption.BRK =>
      if cpu.read_flag Cpu.Flag.InterruptDisable then some (cpu, nes)
      else do
        let c1 ← cpu.push_word cpu.pc
        let c2 ← c1.push_byte c1.status
        let c3 := { c2 with status := c2.status ||| Cpu.Flag.toByte Cpu.Flag.InterruptDisable }
        let (hi, n1) ← c3.read nes 0xFFFF
        let (lo, n2) ← c3.read n1 0xFFFE
        pure ({ c3 with pc := (hi <<< 8) ||| lo },
              { n2 with cpu_interruption := Interruption.None })

/-- Mirrors `Cpu::tick`: execute one instruction, then service a
pending interruption, and return the executed instruction's cycle
count. -/
def Cpu.tick (cpu : Cpu) (nes : Nes) : Option (Cpu × Nes × Nat) := do
  let (c1, n1, cycle) ← cpu.execute_instruction nes
  let (c2, n2) ← c1.interrupt n1
  pure (c2, n2, cycle)

/-! ## Closed evaluations: divergences between spec and code -/

/-- C1: executing ASL zero-page (opcode 0x06, operand 0x10) with
`a = 0` and `memory[0x10] = 1` leaves the 8-bit result 2 in memory —
a nonzero result — yet the Zero flag is set, because
`Cpu::instruction_asl` computes the Zero flag from `self.a == 0`
instead of from the shift result.  This violates the flag-setting law
"Zero flag ⇔ result == 0" at this input. -/
theorem asl_zero_flag_from_accumulator_bug :
    (Option.map (fun t => (t.1.ram 0x10, Cpu.read_flag t.1 Cpu.Flag.Zero))
      (Cpu.execute_instruction
        { Cpu.new with status := 0, ram := fun j => if j = 0x10 then 1 else 0 }
        (Nes.new_for_test [0x06, 0x10]))) = some (2, true) ∧
    (2 : Nat) ≠ 0 :=
  ⟨rfl, by decide⟩

/-- C3: from the reset state (`Cpu::new`, stack pointer 0x00FD),
`push_byte` stores the pushed byte at RAM address 0x00FD — inside zero
page — and leaves RAM address 0x01FD (the hardware stack cell for
stack pointer 0xFD) untouched; the address accessed, `Cpu.new.s`, is
not in the stack region 0x0100–0x01FF. -/
theorem push_byte_targets_zero_page :
    (Option.map (fun c => (c.ram 0xFD, c.ram 0x1FD, c.s))
      (Cpu.push_byte Cpu.new 0xAB)) = some (0xAB, 0, 0xFC) ∧
    Cpu.new.s = 0xFD ∧
    ¬ (0x0100 ≤ Cpu.new.s ∧ Cpu.new.s ≤ 0x01FF) :=
  ⟨rfl, rfl, by decide⟩

/-- C8: from the reset state, `push_word 0x1234` stores 0x12 at RAM
index 0xFD and 0x34 at 0xFC, but the first `pop` returns 0x00 (the
never-written cell at index 0xFB below the top of the stack, because
`pop` reads `self.s - 1` after incrementing `s`) instead of the low
byte 0x34, and the second `pop` returns 0x34 instead of the high byte
0x12.  The stack pointer does return to its pre-push value 0xFD. -/
theorem push_word_pop_mismatch :
    ∃ c1, Cpu.push_word Cpu.new 0x1234 = some c1 ∧
      (c1.ram 0xFD, c1.ram 0xFC) = (0x12, 0x34) ∧
      Option.map (fun p => p.1) c1.pop = some 0x00 ∧
      Option.map (fun p => (p.1, p.2.s)) (Option.bind c1.pop fun p => p.2.pop)
        = some (0x34, 0xFD) :=
  ⟨_, rfl, rfl, rfl, rfl⟩

/-- C5 counterexample: executing ASL absolute,X (opcode 0x1E, base
cycle count 7) with `x = 1` and base address 0x01FF — so the indexed
effective address 0x0200 crosses a page boundary — returns exactly 7
cycles, the table base count, not base+1. -/
theorem asl_absolute_x_page_cross_no_penalty :
    (Option.map (fun t => t.2.2)
      (Cpu.execute_instruction { Cpu.new with status := 0, x := 1 }
        (Nes.new_for_test [0x1E, 0xFF, 0x01]))) = some 7 ∧
    instructionOfByte 0x1E = ⟨Opcode.ASL, Addressing.AbsoluteX, 7⟩ ∧
    (0x01FF : Nat) &&& 0xFF00 ≠ ((0x01FF + 1) % 0x10000) &&& 0xFF00 :=
  ⟨rfl, rfl, by decide⟩

/-- C9 counterexample: a CPU bus write to 0x4020 — inside the
unimplemented expansion region 0x4020–0x7FFF — aborts (the
`0x4020..=0xFFFF => panic!("Cartridge space is read only...")` arm of
`Cpu::write`) instead of being a warned no-op; the read of the same
address does return zero. -/
theorem write_expansion_region_aborts :
    Cpu.write Cpu.new (Nes.new_for_test []) 0x4020 0xAB = none ∧
    (Option.map (fun p => p.1)
      (Cpu.read Cpu.new (Nes.new_for_test []) 0x4020)) = some 0 :=
  ⟨rfl, rfl⟩

/-- C10 counterexample: a `tick` of the reset CPU (whose power-up
status 0x34 has InterruptDisable set) on the one-byte program `[0x00]`
(BRK) executes the BRK instruction, which marks a pending BRK
interruption; the interrupt-service step then returns early because
InterruptDisable is set, *without* clearing the pending interruption.
After this `tick` the shared field is still `BRK`, not `None`. -/
theorem tick_leaves_brk_pending :
    (Option.map (fun t => t.2.1.cpu_interruption)
      (Cpu.tick Cpu.new (Nes.new_for_test [0x00]))) = some Interruption.BRK ∧
    Interruption.BRK ≠ Interruption.None :=
  ⟨rfl, by decide⟩

/-! ## Helper lemmas for symbolic execution -/

/-- A bus read of any address in the mirrored RAM window 0x0000–0x1FFF
succeeds and leaves the system container unchanged. -/
theorem Cpu.read_low_exists (cpu : Cpu) (nes : Nes) (addr : Nat)
    (h : addr ≤ 0x1FFF) :
    ∃ v, Cpu.read cpu nes addr = some (v, nes) := by
  unfold Cpu.read Cpu.read_ram RAM_SIZE
  by_cases h1 : addr ≤ 0x07FF
  · exact ⟨cpu.ram addr, by simp [h1, show addr < 0x800 by omega]⟩
  by_cases h2 : addr ≤ 0x0FFF
  · exact ⟨cpu.ram (addr - 0x0800),
      by simp [h1, h2, show addr - 0x0800 < 0x800 by omega]⟩
  by_cases h3 : addr ≤ 0x17FF
  · exact ⟨cpu.ram (addr - 0x1000),
      by simp [h1, h2, h3, show addr - 0x1000 < 0x800 by omega]⟩
  · exact ⟨cpu.ram (addr - 0x1800),
      by simp [h1, h2, h3, show addr ≤ 0x1FFF from h,
               show addr - 0x1800 < 0x800 by omega]⟩

/-- A bus read of a PRG ROM address (0x8000 and up) inside the cassette
image returns the ROM byte and leaves the system container unchanged.
The ROM index is provided as an explicit `i` to keep literal arithmetic
out of the statement. -/
theorem Cpu.read_rom_eq (cpu : Cpu) (nes : Nes) (addr i : Nat)
    (h1 : 0x8000 ≤ addr) (h2 : addr ≤ 0xFFFF) (hi : addr = 0x8000 + i)
    (h3 : i < nes.prg_len) :
    Cpu.read cpu nes addr = some (nes.cassette_prg_rom i, nes) := by
  subst hi
  unfold Cpu.read Nes.read_program PRG_ROM_BASE
  simp [show ¬ 0x8000 + i ≤ 0x07FF by omega, show ¬ 0x8000 + i ≤ 0x0FFF by omega,
        show ¬ 0x8000 + i ≤ 0x17FF by omega, show ¬ 0x8000 + i ≤ 0x1FFF by omega,
        show ¬ 0x8000 + i ≤ 0x2007 by omega, show ¬ 0x8000 + i ≤ 0x401F by omega,
        show ¬ 0x8000 + i ≤ 0x7FFF by omega, h2,
        show 0x8000 + i - 0x8000 = i by omega, h3]

/-- The wrapping decrement of a nonzero value is the plain decrement. -/
theorem u16_sub_one_eq (a : Nat) (h : a ≠ 0) : u16_sub_one a = a - 1 := by
  unfold u16_sub_one
  simp [h]

/-- A fetch whose program counter sits at `0x8000 + i` inside the
cassette image returns the ROM byte at index `i` and advances `pc` to
`0x8000 + (i + 1)`. -/
theorem Cpu.fetch_byte_eq (cpu : Cpu) (nes : Nes) (i : Nat)
    (hp : cpu.pc = 0x8000 + i) (h2 : i ≤ 0x7FFE) (h3 : i < nes.prg_len) :
    Cpu.fetch_byte cpu nes =
      some (nes.cassette_prg_rom i,
            { cpu with pc := 0x8000 + (i + 1) }, nes) := by
  unfold Cpu.fetch_byte
  rw [hp]
  rw [show (0x8000 + i + 1) % 0x10000 = 0x8000 + (i + 1) by omega]
  dsimp only
  rw [u16_sub_one_eq _ (by omega), show 0x8000 + (i + 1) - 1 = 0x8000 + i by omega]
  rw [Cpu.read_rom_eq _ _ _ i (by omega) (by omega) rfl h3]
  rfl

/-- Executing one instruction, given the fetched opcode byte: decode,
dispatch, and add the table base cycles. -/
theorem Cpu.execute_instruction_eq (cpu : Cpu) (nes : Nes) (b : Nat)
    (c1 : Cpu) (n1 : Nes) (h : cpu.fetch_byte nes = some (b, c1, n1)) :
    Cpu.execute_instruction cpu nes =
      (c1.dispatch n1 (instructionOfByte b)).bind
        (fun r => some (r.1, r.2.1, (instructionOfByte b).cycles + r.2.2)) := by
  unfold Cpu.execute_instruction
  rw [h]
  rfl

/-- Dispatch of a decoded LDA. -/
theorem Cpu.dispatch_lda (c : Cpu) (n : Nes) (m : Addressing) (k : Nat) :
    Cpu.dispatch c n ⟨Opcode.LDA, m, k⟩ = c.instruction_lda n m := rfl

/-- Dispatch of a decoded NOP. -/
theorem Cpu.dispatch_nop (c : Cpu) (n : Nes) (m : Addressing) (k : Nat) :
    Cpu.dispatch c n ⟨Opcode.NOP, m, k⟩ = c.instruction_nop n m := rfl

/-- Dispatch of a decoded BMI. -/
theorem Cpu.dispatch_bmi (c : Cpu) (n : Nes) (m : Addressing) (k : Nat) :
    Cpu.dispatch c n ⟨Opcode.BMI, m, k⟩ =
      (c.instruction_bmi n m).map fun p => (p.2.1, p.2.2, p.1) := rfl

/-- Dispatch of a decoded BNE. -/
theorem Cpu.dispatch_bne (c : Cpu) (n : Nes) (m : Addressing) (k : Nat) :
    Cpu.dispatch c n ⟨Opcode.BNE, m, k⟩ =
      (c.instruction_bne n m).map fun p => (p.2.1, p.2.2, p.1) := rfl

/-- Dispatch of a decoded BPL. -/
theorem Cpu.dispatch_bpl (c : Cpu) (n : Nes) (m : Addressing) (k : Nat) :
    Cpu.dispatch c n ⟨Opcode.BPL, m, k⟩ =
      (c.instruction_bpl n m).map fun p => (p.2.1, p.2.2, p.1) := rfl

/-- Dispatch of a decoded BVC. -/
theorem Cpu.dispatch_bvc (c : Cpu) (n : Nes) (m : Addressing) (k : Nat) :
    Cpu.dispatch c n ⟨Opcode.BVC, m, k⟩ =
      (c.instruction_bvc n m).map fun p => (p.2.1, p.2.2, p.1) := rfl

/-- Cycle count of LDA absolute,X executed at reset `pc` on a base word
whose indexed effective address stays in the RAM window: the table base
4 plus exactly one extra cycle when the page is crossed. -/
theorem Cpu.lda_absolute_x_cycles (lo hi x : Nat)
    (hbound : ((hi <<< 8) ||| lo) + x ≤ 0x1FFF) :
    (Option.map (fun t => t.2.2)
      (Cpu.execute_instruction { Cpu.new with status := 0, x := x }
        (Nes.new_for_test [0xBD, lo, hi])))
      = some (4 + (if ((hi <<< 8) ||| lo) &&& 0xFF00 ≠ (((hi <<< 8) ||| lo) + x) &&& 0xFF00 then 1 else 0)) := by
  have hf1 : Cpu.fetch_byte { Cpu.new with status := 0, x := x }
      (Nes.new_for_test [0xBD, lo, hi]) =
      some (0xBD, { Cpu.new with status := 0, x := x, pc := 0x8001 },
        Nes.new_for_test [0xBD, lo, hi]) := by
    rw [Cpu.fetch_byte_eq _ _ 0 (by simp [Cpu.new, PRG_ROM_BASE]) (by omega)
      (by simp [Nes.new_for_test])]
    simp [Cpu.new, Nes.new_for_test, PRG_ROM_BASE]
  have hf2 : Cpu.fetch_byte { Cpu.new with status := 0, x := x, pc := 0x8001 }
      (Nes.new_for_test [0xBD, lo, hi]) =
      some (lo, { Cpu.new with status := 0, x := x, pc := 0x8002 },
        Nes.new_for_test [0xBD, lo, hi]) := by
    rw [Cpu.fetch_byte_eq _ _ 1 (by simp [Cpu.new, PRG_ROM_BASE]) (by omega)
      (by simp [Nes.new_for_test])]
    simp [Cpu.new, Nes.new_for_test, PRG_ROM_BASE]
  have hf3 : Cpu.fetch_byte { Cpu.new with status := 0, x := x, pc := 0x8002 }
      (Nes.new_for_test [0xBD, lo, hi]) =
      some (hi, { Cpu.new with status := 0, x := x, pc := 0x8003 },
        Nes.new_for_test [0xBD, lo, hi]) := by
    rw [Cpu.fetch_byte_eq _ _ 2 (by simp [Cpu.new, PRG_ROM_BASE]) (by omega)
      (by simp [Nes.new_for_test])]
    simp [Cpu.new, Nes.new_for_test, PRG_ROM_BASE]
  obtain ⟨v, hv⟩ := Cpu.read_low_exists
    { Cpu.new with status := 0, x := x, pc := 0x8003 }
    (Nes.new_for_test [0xBD, lo, hi]) (((hi <<< 8) ||| lo) + x) (by omega)
  rw [Cpu.execute_instruction_eq _ _ _ _ _ hf1]
  rw [show instructionOfByte 0xBD = ⟨Opcode.LDA, Addressing.AbsoluteX, 4⟩ from by decide]
  rw [Cpu.dispatch_lda]
  simp only [Cpu.instruction_lda]
  simp only [Cpu.fetch_word]
  simp only [hf2]
  simp only [Option.bind_eq_bind, Option.pure_def]
  rw [Option.some_bind]
  dsimp only
  simp only [hf3]
  rw [Option.some_bind]
  dsimp only
  rw [Option.some_bind]
  dsimp only
  rw [show (((hi <<< 8) ||| lo) + x) % 0x10000 = ((hi <<< 8) ||| lo) + x from
    Nat.mod_eq_of_lt (by omega)]
  rw [hv]
  rw [Option.some_bind]
  dsimp only
  rw [Option.some_bind]
  dsimp only
  rw [Option.some_bind]
  rfl

/-- Cycle count of the unofficial NOP absolute,X (0x1C): the table base
4 plus exactly one extra cycle when the page is crossed. -/
theorem Cpu.nop_absolute_x_cycles (lo hi x : Nat)
    (hbound : ((hi <<< 8) ||| lo) + x ≤ 0x1FFF) :
    (Option.map (fun t => t.2.2)
      (Cpu.execute_instruction { Cpu.new with status := 0, x := x }
        (Nes.new_for_test [0x1C, lo, hi])))
      = some (4 + (if ((hi <<< 8) ||| lo) &&& 0xFF00 ≠ (((hi <<< 8) ||| lo) + x) &&& 0xFF00 then 1 else 0)) := by
  have hf1 : Cpu.fetch_byte { Cpu.new with status := 0, x := x }
      (Nes.new_for_test [0x1C, lo, hi]) =
      some (0x1C, { Cpu.new with status := 0, x := x, pc := 0x8001 },
        Nes.new_for_test [0x1C, lo, hi]) := by
    rw [Cpu.fetch_byte_eq _ _ 0 (by simp [Cpu.new, PRG_ROM_BASE]) (by omega)
      (by simp [Nes.new_for_test])]
    simp [Cpu.new, Nes.new_for_test, PRG_ROM_BASE]
  have hf2 : Cpu.fetch_byte { Cpu.new with status := 0, x := x, pc := 0x8001 }
      (Nes.new_for_test [0x1C, lo, hi]) =
      some (lo, { Cpu.new with status := 0, x := x, pc := 0x8002 },
        Nes.new_for_test [0x1C, lo, hi]) := by
    rw [Cpu.fetch_byte_eq _ _ 1 (by simp [Cpu.new, PRG_ROM_BASE]) (by omega)
      (by simp [Nes.new_for_test])]
    simp [Cpu.new, Nes.new_for_test, PRG_ROM_BASE]
  have hf3 : Cpu.fetch_byte { Cpu.new with status := 0, x := x, pc := 0x8002 }
      (Nes.new_for_test [0x1C, lo, hi]) =
      some (hi, { Cpu.new with status := 0, x := x, pc := 0x8003 },
        Nes.new_for_test [0x1C, lo, hi]) := by
    rw [Cpu.fetch_byte_eq _ _ 2 (by simp [Cpu.new, PRG_ROM_BASE]) (by omega)
      (by simp [Nes.new_for_test])]
    simp [Cpu.new, Nes.new_for_test, PRG_ROM_BASE]
  obtain ⟨v, hv⟩ := Cpu.read_low_exists
    { Cpu.new with status := 0, x := x, pc := 0x8003 }
    (Nes.new_for_test [0x1C, lo, hi]) (((hi <<< 8) ||| lo) + x) (by omega)
  rw [Cpu.execute_instruction_eq _ _ _ _ _ hf1]
  rw [show instructionOfByte 0x1C = ⟨Opcode.NOP, Addressing.AbsoluteX, 4⟩ from by decide]
  rw [Cpu.dispatch_nop]
  simp only [Cpu.instruction_nop]
  simp only [Cpu.fetch_addressed_data]
  simp only [Cpu.fetch_word]
  simp only [hf2]
  simp only [Option.bind_eq_bind, Option.pure_def]
  rw [Option.some_bind]
  dsimp only
  simp only [hf3]
  rw [Option.some_bind]
  dsimp only
  rw [Option.some_bind]
  dsimp only
  rw [show (((hi <<< 8) ||| lo) + x) % 0x10000 = ((hi <<< 8) ||| lo) + x from
    Nat.mod_eq_of_lt (by omega)]
  rw [hv]
  rw [Option.some_bind]
  dsimp only
  simp only [if_true]
  rw [Option.some_bind]
  dsimp only
  rw [show ((((hi <<< 8) ||| lo) + x) + 0x10000 - x % 0x10000) % 0x10000 =
      (hi <<< 8) ||| lo from by omega]
  rcases eq_or_ne (((hi <<< 8) ||| lo) &&& 0xFF00)
      ((((hi <<< 8) ||| lo) + x) &&& 0xFF00) with hpg | hpg
  · rw [if_neg (fun hcon => hcon hpg.symm), if_neg (fun hcon => hcon hpg)]
    rfl
  · rw [if_pos (Ne.symm hpg), if_pos hpg]
    rfl

/-- C5 (amended): for the instructions whose handlers implement the
page-cross penalty — LDA with AbsoluteX addressing and NOP with
AbsoluteX addressing — executing on a base word `(hi<<8)|lo` with index
`x` returns exactly the decode-table base cycle count (4) when the
indexed effective address stays in the page of the base word, and
base+1 when it crosses into a different page.  (The read-modify-write
indexed instructions ASL/ISC/SLO never add the penalty; see the
counterexample theorem.) -/
theorem indexed_page_cross_penalty_lda_nop (lo hi x : Nat)
    (hbound : ((hi <<< 8) ||| lo) + x ≤ 0x1FFF) :
    ((Option.map (fun t => t.2.2)
      (Cpu.execute_instruction { Cpu.new with status := 0, x := x }
        (Nes.new_for_test [0xBD, lo, hi])))
      = some (4 + (if ((hi <<< 8) ||| lo) &&& 0xFF00 ≠ (((hi <<< 8) ||| lo) + x) &&& 0xFF00 then 1 else 0))) ∧
    ((Option.map (fun t => t.2.2)
      (Cpu.execute_instruction { Cpu.new with status := 0, x := x }
        (Nes.new_for_test [0x1C, lo, hi])))
      = some (4 + (if ((hi <<< 8) ||| lo) &&& 0xFF00 ≠ (((hi <<< 8) ||| lo) + x) &&& 0xFF00 then 1 else 0))) :=
  ⟨Cpu.lda_absolute_x_cycles lo hi x hbound, Cpu.nop_absolute_x_cycles lo hi x hbound⟩

/-- Witness for `indexed_page_cross_penalty_lda_nop` at base 0x01FF and
index 1, a page-crossing instance. -/
theorem indexed_page_cross_penalty_lda_nop_witness :
    (((0x01 <<< 8) ||| 0xFF) + 1 ≤ 0x1FFF) ∧
    (((Option.map (fun t => t.2.2)
      (Cpu.execute_instruction { Cpu.new with status := 0, x := 1 }
        (Nes.new_for_test [0xBD, 0xFF, 0x01])))
      = some (4 + (if ((0x01 <<< 8) ||| 0xFF) &&& 0xFF00 ≠ (((0x01 <<< 8) ||| 0xFF) + 1) &&& 0xFF00 then 1 else 0))) ∧
    ((Option.map (fun t => t.2.2)
      (Cpu.execute_instruction { Cpu.new with status := 0, x := 1 }
        (Nes.new_for_test [0x1C, 0xFF, 0x01])))
      = some (4 + (if ((0x01 <<< 8) ||| 0xFF) &&& 0xFF00 ≠ (((0x01 <<< 8) ||| 0xFF) + 1) &&& 0xFF00 then 1 else 0)))) :=
  ⟨by decide, indexed_page_cross_penalty_lda_nop 0xFF 0x01 1 (by decide)⟩

/-- Cycle count of BMI: 2 when not taken, 3 taken same page, 4 taken
across a page. -/
theorem Cpu.bmi_cycles (st off : Nat) :
    (Option.map (fun t => t.2.2)
      (Cpu.execute_instruction { Cpu.new with status := st }
        (Nes.new_for_test [0x30, off])))
      = some (if Cpu.read_flag { Cpu.new with status := st } Cpu.Flag.Negative then
          (if u16ofInt (((0x8002 : Nat) : Int) + i8ofByte off) &&& 0xFF00 == 0x8002 &&& 0xFF00
            then 3 else 4)
          else 2) := by
  have hf1 : Cpu.fetch_byte { Cpu.new with status := st }
      (Nes.new_for_test [0x30, off]) =
      some (0x30, { Cpu.new with status := st, pc := 0x8001 },
        Nes.new_for_test [0x30, off]) := by
    rw [Cpu.fetch_byte_eq _ _ 0 (by simp [Cpu.new, PRG_ROM_BASE]) (by omega)
      (by simp [Nes.new_for_test])]
    simp [Cpu.new, Nes.new_for_test, PRG_ROM_BASE]
  have hf2 : Cpu.fetch_byte { Cpu.new with status := st, pc := 0x8001 }
      (Nes.new_for_test [0x30, off]) =
      some (off, { Cpu.new with status := st, pc := 0x8002 },
        Nes.new_for_test [0x30, off]) := by
    rw [Cpu.fetch_byte_eq _ _ 1 (by simp [Cpu.new, PRG_ROM_BASE]) (by omega)
      (by simp [Nes.new_for_test])]
    simp [Cpu.new, Nes.new_for_test, PRG_ROM_BASE]
  rw [Cpu.execute_instruction_eq _ _ _ _ _ hf1]
  rw [show instructionOfByte 0x30 = ⟨Opcode.BMI, Addressing.Relative, 2⟩ from by decide]
  rw [Cpu.dispatch_bmi]
  simp only [Cpu.instruction_bmi]
  rw [if_neg (fun h => h rfl)]
  simp only [Cpu.branch_relative, hf2]
  simp only [Option.map_some']
  dsimp only
  have hrf : Cpu.read_flag { Cpu.new with status := st, pc := 0x8001 }
      Cpu.Flag.Negative = Cpu.read_flag { Cpu.new with status := st }
      Cpu.Flag.Negative := rfl
  rw [hrf]
  by_cases h : Cpu.read_flag { Cpu.new with status := st } Cpu.Flag.Negative
  · simp only [h, if_true]
    by_cases hp : (u16ofInt (((0x8002 : Nat) : Int) + i8ofByte off) &&& 0xFF00
        == 0x8002 &&& 0xFF00) = true
    · simp only [hp, if_true]
      rw [Option.some_bind]
      rfl
    · simp only [hp, if_false]
      rw [Option.some_bind]
      rfl
  · simp only [h, if_false]
    rw [Option.some_bind]
    rfl

/-- Cycle count of BNE: 2 when not taken, 3 taken same page, 4 taken
across a page. -/
theorem Cpu.bne_cycles (st off : Nat) :
    (Option.map (fun t => t.2.2)
      (Cpu.execute_instruction { Cpu.new with status := st }
        (Nes.new_for_test [0xD0, off])))
      = some (if !Cpu.read_flag { Cpu.new with status := st } Cpu.Flag.Zero then
          (if u16ofInt (((0x8002 : Nat) : Int) + i8ofByte off) &&& 0xFF00 == 0x8002 &&& 0xFF00
            then 3 else 4)
          else 2) := by
  have hf1 : Cpu.fetch_byte { Cpu.new with status := st }
      (Nes.new_for_test [0xD0, off]) =
      some (0xD0, { Cpu.new with status := st, pc := 0x8001 },
        Nes.new_for_test [0xD0, off]) := by
    rw [Cpu.fetch_byte_eq _ _ 0 (by simp [Cpu.new, PRG_ROM_BASE]) (by omega)
      (by simp [Nes.new_for_test])]
    simp [Cpu.new, Nes.new_for_test, PRG_ROM_BASE]
  have hf2 : Cpu.fetch_byte { Cpu.new with status := st, pc := 0x8001 }
      (Nes.new_for_test [0xD0, off]) =
      some (off, { Cpu.new with status := st, pc := 0x8002 },
        Nes.new_for_test [0xD0, off]) := by
    rw [Cpu.fetch_byte_eq _ _ 1 (by simp [Cpu.new, PRG_ROM_BASE]) (by omega)
      (by simp [Nes.new_for_test])]
    simp [Cpu.new, Nes.new_for_test, PRG_ROM_BASE]
  rw [Cpu.execute_instruction_eq _ _ _ _ _ hf1]
  rw [show instructionOfByte 0xD0 = ⟨Opcode.BNE, Addressing.Relative, 2⟩ from by decide]
  rw [Cpu.dispatch_bne]
  simp only [Cpu.instruction_bne]
  rw [if_neg (fun h => h rfl)]
  simp only [Cpu.branch_relative, hf2]
  simp only [Option.map_some']
  dsimp only
  have hrf : Cpu.read_flag { Cpu.new with status := st, pc := 0x8001 }
      Cpu.Flag.Zero = Cpu.read_flag { Cpu.new with status := st }
      Cpu.Flag.Zero := rfl
  rw [hrf]
  by_cases h : Cpu.read_flag { Cpu.new with status := st } Cpu.Flag.Zero
  · simp only [h, Bool.not_true, if_false]
    rw [Option.some_bind]
    rfl
  · simp only [eq_false_of_ne_true h, Bool.not_false, if_true]
    by_cases hp : (u16ofInt (((0x8002 : Nat) : Int) + i8ofByte off) &&& 0xFF00
        == 0x8002 &&& 0xFF00) = true
    · simp only [hp, if_true]
      rw [Option.some_bind]
      rfl
    · simp only [hp, if_false]
      rw [Option.some_bind]
      rfl

/-- Cycle count of BPL: 2 when not taken, 3 taken same page, 4 taken
across a page. -/
theorem Cpu.bpl_cycles (st off : Nat) :
    (Option.map (fun t => t.2.2)
      (Cpu.execute_instruction { Cpu.new with status := st }
        (Nes.new_for_test [0x10, off])))
      = some (if !Cpu.read_flag { Cpu.new with status := st } Cpu.Flag.Negative then
          (if u16ofInt (((0x8002 : Nat) : Int) + i8ofByte off) &&& 0xFF00 == 0x8002 &&& 0xFF00
            then 3 else 4)
          else 2) := by
  have hf1 : Cpu.fetch_byte { Cpu.new with status := st }
      (Nes.new_for_test [0x10, off]) =
      some (0x10, { Cpu.new with status := st, pc := 0x8001 },
        Nes.new_for_test [0x10, off]) := by
    rw [Cpu.fetch_byte_eq _ _ 0 (by simp [Cpu.new, PRG_ROM_BASE]) (by omega)
      (by simp [Nes.new_for_test])]
    simp [Cpu.new, Nes.new_for_test, PRG_ROM_BASE]
  have hf2 : Cpu.fetch_byte { Cpu.new with status := st, pc := 0x8001 }
      (Nes.new_for_test [0x10, off]) =
      some (off, { Cpu.new with status := st, pc := 0x8002 },
        Nes.new_for_test [0x10, off]) := by
    rw [Cpu.fetch_byte_eq _ _ 1 (by simp [Cpu.new, PRG_ROM_BASE]) (by omega)
      (by simp [Nes.new_for_test])]
    simp [Cpu.new, Nes.new_for_test, PRG_ROM_BASE]
  rw [Cpu.execute_instruction_eq _ _ _ _ _ hf1]
  rw [show instructionOfByte 0x10 = ⟨Opcode.BPL, Addressing.Relative, 2⟩ from by decide]
  rw [Cpu.dispatch_bpl]
  simp only [Cpu.instruction_bpl]
  rw [if_neg (fun h => h rfl)]
  simp only [Cpu.branch_relative, hf2]
  simp only [Option.map_some']
  dsimp only
  have hrf : Cpu.read_flag { Cpu.new with status := st, pc := 0x8001 }
      Cpu.Flag.Negative = Cpu.read_flag { Cpu.new with status := st }
      Cpu.Flag.Negative := rfl
  rw [hrf]
  by_cases h : Cpu.read_flag { Cpu.new with status := st } Cpu.Flag.Negative
  · simp only [h, Bool.not_true, if_false]
    rw [Option.some_bind]
    rfl
  · simp only [eq_false_of_ne_true h, Bool.not_false, if_true]
    by_cases hp : (u16ofInt (((0x8002 : Nat) : Int) + i8ofByte off) &&& 0xFF00
        == 0x8002 &&& 0xFF00) = true
    · simp only [hp, if_true]
      rw [Option.some_bind]
      rfl
    · simp only [hp, if_false]
      rw [Option.some_bind]
      rfl

/-- Cycle count of BVC (its own inline branch logic in the source): 2
when not taken, 3 taken same page, 4 taken across a page. -/
theorem Cpu.bvc_cycles (st off : Nat) :
    (Option.map (fun t => t.2.2)
      (Cpu.execute_instruction { Cpu.new with status := st }
        (Nes.new_for_test [0x50, off])))
      = some (if !Cpu.read_flag { Cpu.new with status := st } Cpu.Flag.Overflow then
          (if u16ofInt (((0x8002 : Nat) : Int) + i8ofByte off) &&& 0xFF00 == 0x8002 &&& 0xFF00
            then 3 else 4)
          else 2) := by
  have hf1 : Cpu.fetch_byte { Cpu.new with status := st }
      (Nes.new_for_test [0x50, off]) =
      some (0x50, { Cpu.new with status := st, pc := 0x8001 },
        Nes.new_for_test [0x50, off]) := by
    rw [Cpu.fetch_byte_eq _ _ 0 (by simp [Cpu.new, PRG_ROM_BASE]) (by omega)
      (by simp [Nes.new_for_test])]
    simp [Cpu.new, Nes.new_for_test, PRG_ROM_BASE]
  have hf2 : Cpu.fetch_byte { Cpu.new with status := st, pc := 0x8001 }
      (Nes.new_for_test [0x50, off]) =
      some (off, { Cpu.new with status := st, pc := 0x8002 },
        Nes.new_for_test [0x50, off]) := by
    rw [Cpu.fetch_byte_eq _ _ 1 (by simp [Cpu.new, PRG_ROM_BASE]) (by omega)
      (by simp [Nes.new_for_test])]
    simp [Cpu.new, Nes.new_for_test, PRG_ROM_BASE]
  rw [Cpu.execute_instruction_eq _ _ _ _ _ hf1]
  rw [show instructionOfByte 0x50 = ⟨Opcode.BVC, Addressing.Relative, 2⟩ from by decide]
  rw [Cpu.dispatch_bvc]
  simp only [Cpu.instruction_bvc]
  rw [if_neg (fun h => h rfl)]
  simp only [hf2]
  simp only [Option.map_some']
  dsimp only
  have hrf : Cpu.read_flag { Cpu.new with status := st, pc := 0x8002 }
      Cpu.Flag.Overflow = Cpu.read_flag { Cpu.new with status := st }
      Cpu.Flag.Overflow := rfl
  rw [hrf]
  by_cases h : Cpu.read_flag { Cpu.new with status := st } Cpu.Flag.Overflow
  · simp only [h, Bool.not_true, if_false]
    rw [Option.some_bind]
    rfl
  · simp only [eq_false_of_ne_true h, Bool.not_false, if_true]
    by_cases hp : u16ofInt (((0x8002 : Nat) : Int) + i8ofByte off) &&& 0xFF00
        = 0x8002 &&& 0xFF00
    · rw [if_neg (fun hcon => hcon hp)]
      rw [show (u16ofInt (((0x8002 : Nat) : Int) + i8ofByte off) &&& 0xFF00
          == 0x8002 &&& 0xFF00) = true from beq_iff_eq.mpr hp]
      rw [if_pos rfl]
      rw [Option.some_bind]
      rfl
    · rw [if_pos hp]
      rw [show (u16ofInt (((0x8002 : Nat) : Int) + i8ofByte off) &&& 0xFF00
          == 0x8002 &&& 0xFF00) = false from beq_eq_false_iff_ne.mpr hp]
      rw [if_neg (fun hcon => Bool.false_ne_true hcon)]
      rw [Option.some_bind]
      rfl

/-- C6: for every conditional branch instruction (BMI, BNE, BPL, BVC)
executed from the reset `pc` with status byte `st` and relative operand
`off`: when the branch condition is false the instruction costs exactly
the table base cycle count 2; when the condition is true and the branch
target is in the same 256-byte page as the post-operand program counter
(0x8002) it costs 3 = base+1; and when the target crosses a page it
costs 4 = base+2. -/
theorem branch_cycle_law (st off : Nat) :
    ((Option.map (fun t => t.2.2)
      (Cpu.execute_instruction { Cpu.new with status := st }
        (Nes.new_for_test [0x30, off])))
      = some (if Cpu.read_flag { Cpu.new with status := st } Cpu.Flag.Negative then
          (if u16ofInt (((0x8002 : Nat) : Int) + i8ofByte off) &&& 0xFF00 == 0x8002 &&& 0xFF00
            then 3 else 4)
          else 2)) ∧
    ((Option.map (fun t => t.2.2)
      (Cpu.execute_instruction { Cpu.new with status := st }
        (Nes.new_for_test [0xD0, off])))
      = some (if !Cpu.read_flag { Cpu.new with status := st } Cpu.Flag.Zero then
          (if u16ofInt (((0x8002 : Nat) : Int) + i8ofByte off) &&& 0xFF00 == 0x8002 &&& 0xFF00
            then 3 else 4)
          else 2)) ∧
    ((Option.map (fun t => t.2.2)
      (Cpu.execute_instruction { Cpu.new with status := st }
        (Nes.new_for_test [0x10, off])))
      = some (if !Cpu.read_flag { Cpu.new with status := st } Cpu.Flag.Negative then
          (if u16ofInt (((0x8002 : Nat) : Int) + i8ofByte off) &&& 0xFF00 == 0x8002 &&& 0xFF00
            then 3 else 4)
          else 2)) ∧
    ((Option.map (fun t => t.2.2)
      (Cpu.execute_instruction { Cpu.new with status := st }
        (Nes.new_for_test [0x50, off])))
      = some (if !Cpu.read_flag { Cpu.new with status := st } Cpu.Flag.Overflow then
          (if u16ofInt (((0x8002 : Nat) : Int) + i8ofByte off) &&& 0xFF00 == 0x8002 &&& 0xFF00
            then 3 else 4)
          else 2)) :=
  ⟨Cpu.bmi_cycles st off, Cpu.bne_cycles st off, Cpu.bpl_cycles st off,
    Cpu.bvc_cycles st off⟩

/-- A push with the stack pointer inside RAM stores the byte at the raw
stack pointer and decrements it.  The stack pointer value is passed
explicitly as `s0` to keep the statement applicable by rewriting. -/
theorem Cpu.push_byte_eq (cpu : Cpu) (d s0 : Nat) (hs : cpu.s = s0)
    (h1 : 1 ≤ s0) (h2 : s0 < 0x800) :
    cpu.push_byte d =
      some { cpu with
              s := s0 - 1
              ram := fun j => if j = s0 then d else cpu.ram j } := by
  unfold Cpu.push_byte Cpu.write_ram RAM_SIZE
  rw [hs]
  rw [if_pos h2]
  simp only [Option.map_some']
  rw [u16_sub_one_eq s0 (by omega)]

/-- The taken branch of the BRK service routine: pushes `pc` (high byte
at `s`, low byte at `s-1`), then the status byte at `s-2`, sets
InterruptDisable, loads `pc` from the vector at 0xFFFE/0xFFFF, and
clears the pending interruption. -/
theorem Cpu.brk_service_eq (cpu : Cpu) (nes : Nes)
    (hint : nes.cpu_interruption = Interruption.BRK)
    (hI : cpu.read_flag Cpu.Flag.InterruptDisable = false)
    (h1 : 3 ≤ cpu.s) (h2 : cpu.s < 0x800) (hlen : nes.prg_len = 0x8000) :
    cpu.interrupt nes = some (
      { cpu with
          pc := (nes.cassette_prg_rom 0x7FFF <<< 8) ||| nes.cassette_prg_rom 0x7FFE
          s := cpu.s - 3
          status := cpu.status ||| Cpu.Flag.toByte Cpu.Flag.InterruptDisable
          ram := fun j =>
            if j = cpu.s - 2 then cpu.status
            else if j = cpu.s - 1 then cpu.pc &&& 0x00FF
            else if j = cpu.s then (cpu.pc >>> 8) % 256
            else cpu.ram j },
      { nes with cpu_interruption := Interruption.None }) := by
  unfold Cpu.interrupt
  rw [hint]
  rw [if_neg (by rw [hI]; exact Bool.false_ne_true)]
  simp only [Cpu.push_word, Option.bind_eq_bind, Option.pure_def]
  rw [Cpu.push_byte_eq cpu _ cpu.s rfl (by omega) h2]
  rw [Option.some_bind]
  rw [Cpu.push_byte_eq _ _ (cpu.s - 1) rfl (by omega) (by omega)]
  rw [Option.some_bind]
  dsimp only
  rw [Cpu.push_byte_eq _ _ (cpu.s - 1 - 1) rfl (by omega) (by omega)]
  rw [Option.some_bind]
  dsimp only
  rw [Cpu.read_rom_eq _ _ 0xFFFF 0x7FFF (by omega) (by omega) (by norm_num)
    (by omega)]
  rw [Option.some_bind]
  dsimp only
  rw [Cpu.read_rom_eq _ _ 0xFFFE 0x7FFE (by omega) (by omega) (by norm_num)
    (by omega)]
  rw [Option.some_bind]
  simp only [show cpu.s - 1 - 1 - 1 = cpu.s - 3 from by omega,
    show cpu.s - 1 - 1 = cpu.s - 2 from by omega,
    show cpu.s - 2 - 1 = cpu.s - 3 from by omega]

/-- C7: with a BRK interruption pending at the interrupt-service point:
if InterruptDisable is already set the CPU state and the container are
left completely unchanged; if InterruptDisable is clear (and the stack
pointer and cassette allow every access) the CPU pushes `pc` high byte
then low byte, then the status byte, sets the InterruptDisable flag,
and loads `pc` from the vector pair at 0xFFFE (low) and 0xFFFF (high). -/
theorem brk_interrupt_law (cpu : Cpu) (nes : Nes)
    (hint : nes.cpu_interruption = Interruption.BRK) :
    (cpu.read_flag Cpu.Flag.InterruptDisable = true →
      cpu.interrupt nes = some (cpu, nes)) ∧
    (cpu.read_flag Cpu.Flag.InterruptDisable = false → 3 ≤ cpu.s →
      cpu.s < 0x800 → nes.prg_len = 0x8000 →
      cpu.interrupt nes = some (
        { cpu with
            pc := (nes.cassette_prg_rom 0x7FFF <<< 8) ||| nes.cassette_prg_rom 0x7FFE
            s := cpu.s - 3
            status := cpu.status ||| Cpu.Flag.toByte Cpu.Flag.InterruptDisable
            ram := fun j =>
              if j = cpu.s - 2 then cpu.status
              else if j = cpu.s - 1 then cpu.pc &&& 0x00FF
              else if j = cpu.s then (cpu.pc >>> 8) % 256
              else cpu.ram j },
        { nes with cpu_interruption := Interruption.None })) := by
  constructor
  · intro hI
    unfold Cpu.interrupt
    rw [hint, if_pos hI]
  · intro hI h1 h2 hlen
    exact Cpu.brk_service_eq cpu nes hint hI h1 h2 hlen

/-- Witness for `brk_interrupt_law`: the reset CPU (whose power-up
status has InterruptDisable set) with a pending BRK is left unchanged. -/
theorem brk_interrupt_law_witness :
    ({ Nes.new_for_test [] with
        cpu_interruption := Interruption.BRK } : Nes).cpu_interruption
      = Interruption.BRK ∧
    ((Cpu.new.read_flag Cpu.Flag.InterruptDisable = true →
      Cpu.new.interrupt { Nes.new_for_test [] with
        cpu_interruption := Interruption.BRK } =
        some (Cpu.new, { Nes.new_for_test [] with
          cpu_interruption := Interruption.BRK })) ∧
    (Cpu.new.read_flag Cpu.Flag.InterruptDisable = false → 3 ≤ Cpu.new.s →
      Cpu.new.s < 0x800 →
      ({ Nes.new_for_test [] with
          cpu_interruption := Interruption.BRK } : Nes).prg_len = 0x8000 →
      Cpu.new.interrupt { Nes.new_for_test [] with
          cpu_interruption := Interruption.BRK } = some (
        { Cpu.new with
            pc := (({ Nes.new_for_test [] with
                cpu_interruption := Interruption.BRK } : Nes).cassette_prg_rom 0x7FFF <<< 8) |||
              ({ Nes.new_for_test [] with
                cpu_interruption := Interruption.BRK } : Nes).cassette_prg_rom 0x7FFE
            s := Cpu.new.s - 3
            status := Cpu.new.status ||| Cpu.Flag.toByte Cpu.Flag.InterruptDisable
            ram := fun j =>
              if j = Cpu.new.s - 2 then Cpu.new.status
              else if j = Cpu.new.s - 1 then Cpu.new.pc &&& 0x00FF
              else if j = Cpu.new.s then (Cpu.new.pc >>> 8) % 256
              else Cpu.new.ram j },
        { { Nes.new_for_test [] with
            cpu_interruption := Interruption.BRK } with
          cpu_interruption := Interruption.None }))) :=
  ⟨rfl, brk_interrupt_law Cpu.new
    { Nes.new_for_test [] with cpu_interruption := Interruption.BRK } rfl⟩

/-- C9 (amended): a CPU bus read anywhere in the unimplemented
expansion region 0x4020–0x7FFF returns zero (a logged warning in the
source) and leaves all state unchanged, but a CPU bus write anywhere in
0x4020–0xFFFF — the expansion region included — is a fatal abort: the
write dispatch of `Cpu::write` treats everything from 0x4020 up as
read-only cartridge space. -/
theorem expansion_read_zero_write_fatal (cpu : Cpu) (nes : Nes)
    (addr d : Nat) (h1 : 0x4020 ≤ addr) :
    (addr ≤ 0x7FFF → cpu.read nes addr = some (0, nes)) ∧
    (addr ≤ 0xFFFF → cpu.write nes addr d = none) := by
  constructor
  · intro h2
    unfold Cpu.read
    simp [show ¬ addr ≤ 0x07FF by omega, show ¬ addr ≤ 0x0FFF by omega,
      show ¬ addr ≤ 0x17FF by omega, show ¬ addr ≤ 0x1FFF by omega,
      show ¬ addr ≤ 0x2007 by omega, show ¬ addr ≤ 0x401F by omega, h2]
  · intro h2
    unfold Cpu.write
    simp [show ¬ addr ≤ 0x07FF by omega, show ¬ addr ≤ 0x0FFF by omega,
      show ¬ addr ≤ 0x17FF by omega, show ¬ addr ≤ 0x1FFF by omega,
      show ¬ addr ≤ 0x2007 by omega, show ¬ addr ≤ 0x401F by omega]

/-- Witness for `expansion_read_zero_write_fatal` at address 0x5000. -/
theorem expansion_read_zero_write_fatal_witness :
    (0x4020 ≤ (0x5000 : Nat)) ∧
    (((0x5000 : Nat) ≤ 0x7FFF →
      Cpu.new.read (Nes.new_for_test []) 0x5000 = some (0, Nes.new_for_test [])) ∧
    ((0x5000 : Nat) ≤ 0xFFFF →
      Cpu.new.write (Nes.new_for_test []) 0x5000 0xAB = none)) :=
  ⟨by decide, expansion_read_zero_write_fatal Cpu.new (Nes.new_for_test [])
    0x5000 0xAB (by decide)⟩

/-- C10 (amended): whenever the interrupt-service step completes, the
shared pending-interrupt field afterwards is `None` in every case —
RESET, IRQ, NMI, an already-clear `None`, and a serviced BRK — except
one: when the pending interruption is BRK and the InterruptDisable flag
is set, the service routine returns early without clearing it, and the
pending BRK is carried over. -/
theorem interrupt_pending_after_service (cpu : Cpu) (nes : Nes)
    (cpu2 : Cpu) (nes2 : Nes) (h : cpu.interrupt nes = some (cpu2, nes2)) :
    nes2.cpu_interruption =
      (if nes.cpu_interruption = Interruption.BRK ∧
          cpu.read_flag Cpu.Flag.InterruptDisable = true
        then Interruption.BRK else Interruption.None) := by
  unfold Cpu.interrupt at h
  cases hcase : nes.cpu_interruption with
  | RESET =>
      rw [hcase] at h
      simp only [Option.some.injEq, Prod.mk.injEq] at h
      rw [← h.2]
      simp [hcase]
  | IRQ =>
      rw [hcase] at h
      simp only [Option.some.injEq, Prod.mk.injEq] at h
      rw [← h.2]
      simp [hcase]
  | NMI =>
      rw [hcase] at h
      simp only [Option.some.injEq, Prod.mk.injEq] at h
      rw [← h.2]
      simp [hcase]
  | None =>
      rw [hcase] at h
      simp only [Option.some.injEq, Prod.mk.injEq] at h
      rw [← h.2]
      simp [hcase]
  | BRK =>
      rw [hcase] at h
      by_cases hI : cpu.read_flag Cpu.Flag.InterruptDisable = true
      · rw [if_pos hI] at h
        simp only [Option.some.injEq, Prod.mk.injEq] at h
        rw [← h.2]
        rw [hcase, if_pos ⟨rfl, hI⟩]
      · rw [if_neg hI] at h
        simp only [Option.bind_eq_bind, Option.pure_def] at h
        rw [Option.bind_eq_some] at h
        obtain ⟨c1, hc1, h⟩ := h
        rw [Option.bind_eq_some] at h
        obtain ⟨c2, hc2, h⟩ := h
        rw [Option.bind_eq_some] at h
        obtain ⟨p1, hp1, h⟩ := h
        obtain ⟨v1, n1⟩ := p1
        dsimp only at h
        rw [Option.bind_eq_some] at h
        obtain ⟨p2, hp2, h⟩ := h
        obtain ⟨v2, n2⟩ := p2
        dsimp only at h
        simp only [Option.some.injEq, Prod.mk.injEq] at h
        rw [← h.2]
        simp [hcase, hI]

/-- Witness for `interrupt_pending_after_service`: the reset CPU (with
InterruptDisable set) and a pending BRK, where the pending interruption
is carried over. -/
theorem interrupt_pending_after_service_witness :
    Cpu.new.interrupt { Nes.new_for_test [] with
        cpu_interruption := Interruption.BRK } =
      some (Cpu.new, { Nes.new_for_test [] with
        cpu_interruption := Interruption.BRK }) ∧
    ({ Nes.new_for_test [] with
        cpu_interruption := Interruption.BRK } : Nes).cpu_interruption =
      (if ({ Nes.new_for_test [] with
            cpu_interruption := Interruption.BRK } : Nes).cpu_interruption
            = Interruption.BRK ∧
          Cpu.new.read_flag Cpu.Flag.InterruptDisable = true
        then Interruption.BRK else Interruption.None) :=
  ⟨rfl, interrupt_pending_after_service Cpu.new
    { Nes.new_for_test [] with cpu_interruption := Interruption.BRK }
    Cpu.new
    { Nes.new_for_test [] with cpu_interruption := Interruption.BRK } rfl⟩
